import Mathlib

/-!
# hdPrman `HdPrmanHdMaterialNetwork2Interface`

A shallow embedding of `hdMaterialNetwork2Interface.cpp`: the editing interface
over an `HdMaterialNetwork2` with its one-entry "last accessed node" cache.

* `StdMap` embeds `std::map`: entries kept in strictly increasing key order,
  which is also the iteration order.
* A node handle (`HdMaterialNode2 *`) is `none` for `nullptr` and `some key`
  for the address of the map element stored under `key`.  Elements of a
  `std::map` keep their address until they are erased, so a handle whose key is
  no longer in the map is dangling; loading or storing through it is undefined
  behaviour and is reported as `Fault.danglingNode`.
* `SdfPath(std::string)` is not defined in this file; every operation takes the
  translation as the argument `toPath`.
-/

namespace HdPrman

/-! ## `std::map` -/

/-- Insertion of `(k, v)` into a key-ordered entry list; an entry already
stored under `k` is overwritten in place. -/
def insertEntry {K V : Type} [LinearOrder K] (k : K) (v : V) : List (K × V) → List (K × V)
  | [] => [(k, v)]
  | e :: rest =>
    if k < e.1 then (k, v) :: e :: rest
    else if k = e.1 then (k, v) :: rest
    else e :: insertEntry k v rest

/-- Removal of the entry stored under `k` from an entry list. -/
def eraseEntry {K V : Type} [LinearOrder K] (k : K) : List (K × V) → List (K × V)
  | [] => []
  | e :: rest => if e.1 = k then eraseEntry k rest else e :: eraseEntry k rest

/-- Value stored under `k` in an entry list. -/
def findEntry {K V : Type} [LinearOrder K] (k : K) : List (K × V) → Option V
  | [] => none
  | e :: rest => if e.1 = k then some e.2 else findEntry k rest

/-- The container `std::map<K, V>`: entries in strictly increasing key order. -/
structure StdMap (K V : Type) [LinearOrder K] where
  entries : List (K × V)
  ordered : (entries.map Prod.fst).Pairwise (· < ·)

/-! Insertion and removal keep the key order; `StdMap.assign` and `StdMap.erase`
are built on these four facts. -/

theorem keys_insertEntry_subset {K V : Type} [LinearOrder K] (k : K) (v : V) (l : List (K × V)) :
    ∀ x ∈ (insertEntry k v l).map Prod.fst, x = k ∨ x ∈ l.map Prod.fst := by
  induction l with
  | nil => intro x hx; simp [insertEntry] at hx; exact Or.inl hx
  | cons e rest ih =>
    intro x hx
    unfold insertEntry at hx
    split_ifs at hx with h1 h2
    · simp only [List.map_cons, List.mem_cons] at hx ⊢
      tauto
    · simp only [List.map_cons, List.mem_cons] at hx ⊢
      tauto
    · simp only [List.map_cons, List.mem_cons] at hx ⊢
      rcases hx with hx | hx
      · tauto
      · rcases ih x hx with h | h
        · exact Or.inl h
        · exact Or.inr (Or.inr h)

theorem ordered_insertEntry {K V : Type} [LinearOrder K] (k : K) (v : V) (l : List (K × V))
    (h : (l.map Prod.fst).Pairwise (· < ·)) :
    ((insertEntry k v l).map Prod.fst).Pairwise (· < ·) := by
  induction l with
  | nil => simp [insertEntry]
  | cons e rest ih =>
    simp only [List.map_cons, List.pairwise_cons] at h
    unfold insertEntry
    split_ifs with h1 h2
    · simp only [List.map_cons, List.pairwise_cons, List.mem_cons]
      refine ⟨?_, h.1, h.2⟩
      intro x hx
      rcases hx with hx | hx
      · exact hx ▸ h1
      · exact lt_trans h1 (h.1 x hx)
    · simp only [List.map_cons, List.pairwise_cons]
      exact ⟨fun x hx => h2 ▸ h.1 x hx, h.2⟩
    · simp only [List.map_cons, List.pairwise_cons]
      refine ⟨?_, ih h.2⟩
      intro x hx
      rcases keys_insertEntry_subset k v rest x hx with hk | hk
      · rw [hk]
        exact lt_of_le_of_ne (not_lt.mp h1) (fun hh => h2 hh.symm)
      · exact h.1 x hk

theorem keys_eraseEntry_subset {K V : Type} [LinearOrder K] (k : K) (l : List (K × V)) :
    ∀ x ∈ (eraseEntry k l).map Prod.fst, x ∈ l.map Prod.fst := by
  induction l with
  | nil => intro x hx; simp [eraseEntry] at hx
  | cons e rest ih =>
    intro x hx
    unfold eraseEntry at hx
    split_ifs at hx with h1
    · exact List.mem_cons_of_mem _ (ih x hx)
    · simp only [List.map_cons, List.mem_cons] at hx ⊢
      rcases hx with hx | hx
      · exact Or.inl hx
      · exact Or.inr (ih x hx)

theorem ordered_eraseEntry {K V : Type} [LinearOrder K] (k : K) (l : List (K × V))
    (h : (l.map Prod.fst).Pairwise (· < ·)) :
    ((eraseEntry k l).map Prod.fst).Pairwise (· < ·) := by
  induction l with
  | nil => simp [eraseEntry]
  | cons e rest ih =>
    simp only [List.map_cons, List.pairwise_cons] at h
    unfold eraseEntry
    split_ifs with h1
    · exact ih h.2
    · simp only [List.map_cons, List.pairwise_cons]
      exact ⟨fun x hx => h.1 x (keys_eraseEntry_subset k rest x hx), ih h.2⟩

namespace StdMap

variable {K V : Type} [LinearOrder K]

/-- The empty map. -/
def empty : StdMap K V := ⟨[], List.Pairwise.nil⟩

/-- Lookup `m.find(k)`; `none` stands for `m.end()`. -/
def find (m : StdMap K V) (k : K) : Option V := findEntry k m.entries

/-- Removal `m.erase(k)`. -/
def erase (m : StdMap K V) (k : K) : StdMap K V :=
  ⟨eraseEntry k m.entries, ordered_eraseEntry k m.entries m.ordered⟩

/-- Assignment `m[k] = v`: inserts the key when it is missing, overwrites otherwise. -/
def assign (m : StdMap K V) (k : K) (v : V) : StdMap K V :=
  ⟨insertEntry k v m.entries, ordered_insertEntry k v m.entries m.ordered⟩

/-- Element access `m[k]` for its effect on the map: a missing key is inserted
with a value-initialised element, a present key leaves the map as it is. -/
def subscript [Inhabited V] (m : StdMap K V) (k : K) : StdMap K V :=
  match m.find k with
  | some _ => m
  | none => m.assign k default

/-- Keys in iteration order. -/
def keys (m : StdMap K V) : List K := m.entries.map Prod.fst

/-- Number of elements, `m.size()`. -/
def size (m : StdMap K V) : Nat := m.entries.length

instance instDecidableEqStdMap [DecidableEq V] : DecidableEq (StdMap K V) := fun a b =>
  decidable_of_iff (a.entries = b.entries) (by cases a; cases b; simp)

end StdMap

/-! ## Types used by the interface

These are declared in headers outside this file (`tf/token.h`, `sdf/path.h`,
`vt/value.h`, `hd/material.h`); they are embedded by the members the interface
uses. -/

/-- The token `TfToken`, identified by its string `GetString()`; `TfToken()` is
the token of the empty string. -/
structure TfToken where
  GetString : String

/-- The path `SdfPath`, identified by its string form `GetString()`. -/
structure SdfPath where
  GetString : String

theorem TfToken.tokenChars_injective : Function.Injective (fun t : TfToken => t.GetString.toList) := by
  intro a b h
  cases a with | mk sa => cases b with | mk sb => cases sa; cases sb; simp_all

theorem SdfPath.pathChars_injective : Function.Injective (fun p : SdfPath => p.GetString.toList) := by
  intro a b h
  cases a with | mk sa => cases b with | mk sb => cases sa; cases sb; simp_all

/-- Tokens are ordered by their strings, character by character.  Only the
iteration order of `std::map` depends on this order. -/
instance TfToken.instLinearOrder : LinearOrder TfToken :=
  LinearOrder.lift' (fun t : TfToken => t.GetString.toList) TfToken.tokenChars_injective

/-- Paths are ordered by their string forms, character by character.  Only the
iteration order of `std::map` depends on this order. -/
instance SdfPath.instLinearOrder : LinearOrder SdfPath :=
  LinearOrder.lift' (fun p : SdfPath => p.GetString.toList) SdfPath.pathChars_injective

/-- The default-constructed token `TfToken()`. -/
def TfToken.empty : TfToken := ⟨""⟩

/-- Modelled from the spec: the construction `SdfPath(std::string)` of
`sdf/path.h`, which is not part of this file.  The spec describes the
translation of a flat name to its hierarchical identifier as a pure, injective
string transform that gives the name back on the round trip; the identifier
is modelled as the path whose string form is the given string. -/
def SdfPath.ofString (text : String) : SdfPath := ⟨text⟩

/-- Modelled from the spec: `VtValue`, which is not declared in this file.  The
spec calls it a value carrier that is comparable, copyable and
default-constructible; `VtValue()` is the empty value, and a held value is
kept as an integer code. -/
inductive VtValue where
  | empty
  | held (code : Int)
deriving DecidableEq

/-- A connection as stored in the network, `HdMaterialConnection2`. -/
structure HdMaterialConnection2 where
  upstreamNode : SdfPath
  upstreamOutputName : TfToken
deriving DecidableEq

/-- A connection as seen by callers, `InputConnection`. -/
structure InputConnection where
  upstreamNodeName : TfToken
  upstreamOutputName : TfToken
deriving DecidableEq

/-- A node record, `HdMaterialNode2`. -/
structure HdMaterialNode2 where
  nodeTypeId : TfToken
  parameters : StdMap TfToken VtValue
  inputConnections : StdMap TfToken (List HdMaterialConnection2)
deriving DecidableEq

/-- A value-initialised node: empty type, no parameters, no input connections. -/
instance HdMaterialNode2.instInhabited : Inhabited HdMaterialNode2 :=
  ⟨⟨TfToken.empty, StdMap.empty, StdMap.empty⟩⟩

/-- The network `HdMaterialNetwork2`, by the one member the interface uses. -/
structure HdMaterialNetwork2 where
  nodes : StdMap SdfPath HdMaterialNode2
deriving DecidableEq

/-- Undefined behaviour reached by an operation. -/
inductive Fault where
  | danglingNode
deriving DecidableEq

/-- The members of `HdPrmanHdMaterialNetwork2Interface`: the network pointer
together with its pointee (`none` is `nullptr`), and the cache slot. -/
structure HdPrmanHdMaterialNetwork2Interface where
  materialNetwork : Option HdMaterialNetwork2
  lastAccessedNodeName : TfToken
  lastAccessedNode : Option SdfPath
deriving DecidableEq

namespace HdPrmanHdMaterialNetwork2Interface

/-- Modelled from the spec: the constructor, which is defined in the class
header and not in this file.  It stores the possibly-null network; the cache
slot starts with the default-constructed name and a null handle. -/
def fresh (materialNetwork : Option HdMaterialNetwork2) : HdPrmanHdMaterialNetwork2Interface :=
  ⟨materialNetwork, TfToken.empty, none⟩

/-- Load through a node handle, `*node`.  A handle to an erased element is dangling. -/
def load (s : HdPrmanHdMaterialNetwork2Interface) (node : SdfPath) :
    Except Fault HdMaterialNode2 :=
  match s.materialNetwork with
  | none => .error .danglingNode
  | some net =>
    match net.nodes.find node with
    | none => .error .danglingNode
    | some record => .ok record

/-- Store through a node handle, `node->member = ...`, with `f` the change made
to the record.  A handle to an erased element is dangling. -/
def store (s : HdPrmanHdMaterialNetwork2Interface) (node : SdfPath)
    (f : HdMaterialNode2 → HdMaterialNode2) : Except Fault HdPrmanHdMaterialNetwork2Interface :=
  match s.materialNetwork with
  | none => .error .danglingNode
  | some net =>
    match net.nodes.find node with
    | none => .error .danglingNode
    | some record =>
      .ok { s with materialNetwork := some { net with nodes := net.nodes.assign node (f record) } }

variable (toPath : String → SdfPath)

/-- Source: `_GetNode`.  Returns the state, whose cache slot may have changed,
and the node handle. -/
def _GetNode (s : HdPrmanHdMaterialNetwork2Interface) (nodeName : TfToken) :
    HdPrmanHdMaterialNetwork2Interface × Option SdfPath :=
  match s.materialNetwork with
  | none => (s, none)
  | some net =>
    if nodeName = s.lastAccessedNodeName then (s, s.lastAccessedNode)
    else
      let s1 := { s with lastAccessedNodeName := nodeName }
      match net.nodes.find (toPath nodeName.GetString) with
      | none => ({ s1 with lastAccessedNode := none }, none)
      | some _ =>
        ({ s1 with lastAccessedNode := some (toPath nodeName.GetString) },
          some (toPath nodeName.GetString))

/-- Source: `_GetOrCreateNode`. -/
def _GetOrCreateNode (s : HdPrmanHdMaterialNetwork2Interface) (nodeName : TfToken) :
    HdPrmanHdMaterialNetwork2Interface × Option SdfPath :=
  match _GetNode toPath s nodeName with
  | (s1, some result) => (s1, some result)
  | (s1, none) =>
    match s1.materialNetwork with
    | none => (s1, none)
    | some net =>
      ({ s1 with
          materialNetwork :=
            some { net with nodes := net.nodes.subscript (toPath nodeName.GetString) }
          lastAccessedNode := some (toPath nodeName.GetString) },
        some (toPath nodeName.GetString))

/-- Source: `GetNodeNames`. -/
def GetNodeNames (s : HdPrmanHdMaterialNetwork2Interface) : List TfToken :=
  match s.materialNetwork with
  | none => []
  | some net => net.nodes.entries.map (fun nameNodePair => TfToken.mk nameNodePair.1.GetString)

/-- Source: `GetNodeType`. -/
def GetNodeType (s : HdPrmanHdMaterialNetwork2Interface) (nodeName : TfToken) :
    Except Fault (HdPrmanHdMaterialNetwork2Interface × TfToken) :=
  match _GetNode toPath s nodeName with
  | (s1, some node) => do
    let record ← s1.load node
    pure (s1, record.nodeTypeId)
  | (s1, none) => pure (s1, TfToken.empty)

/-- Source: `GetAuthoredNodeParameterNames`. -/
def GetAuthoredNodeParameterNames (s : HdPrmanHdMaterialNetwork2Interface)
    (nodeName : TfToken) : Except Fault (HdPrmanHdMaterialNetwork2Interface × List TfToken) :=
  match _GetNode toPath s nodeName with
  | (s1, some node) => do
    let record ← s1.load node
    pure (s1, record.parameters.entries.map (fun nameValuePair => nameValuePair.1))
  | (s1, none) => pure (s1, [])

/-- Source: `GetNodeParameterValue`. -/
def GetNodeParameterValue (s : HdPrmanHdMaterialNetwork2Interface)
    (nodeName paramName : TfToken) :
    Except Fault (HdPrmanHdMaterialNetwork2Interface × VtValue) :=
  match _GetNode toPath s nodeName with
  | (s1, some node) => do
    let record ← s1.load node
    match record.parameters.find paramName with
    | some value => pure (s1, value)
    | none => pure (s1, VtValue.empty)
  | (s1, none) => pure (s1, VtValue.empty)

/-- Source: `GetNodeInputConnectionNames`. -/
def GetNodeInputConnectionNames (s : HdPrmanHdMaterialNetwork2Interface)
    (nodeName : TfToken) : Except Fault (HdPrmanHdMaterialNetwork2Interface × List TfToken) :=
  match _GetNode toPath s nodeName with
  | (s1, some node) => do
    let record ← s1.load node
    pure (s1, record.inputConnections.entries.map
      (fun nameConnectionsPair => nameConnectionsPair.1))
  | (s1, none) => pure (s1, [])

/-- Source: `GetNodeInputConnection`. -/
def GetNodeInputConnection (s : HdPrmanHdMaterialNetwork2Interface)
    (nodeName inputName : TfToken) :
    Except Fault (HdPrmanHdMaterialNetwork2Interface × List InputConnection) :=
  match _GetNode toPath s nodeName with
  | (s1, some node) => do
    let record ← s1.load node
    match record.inputConnections.find inputName with
    | some connections =>
      pure (s1, connections.map
        (fun c => InputConnection.mk (TfToken.mk c.upstreamNode.GetString) c.upstreamOutputName))
    | none => pure (s1, [])
  | (s1, none) => pure (s1, [])

/-- Source: `DeleteNode`. -/
def DeleteNode (s : HdPrmanHdMaterialNetwork2Interface) (nodeName : TfToken) :
    HdPrmanHdMaterialNetwork2Interface :=
  match s.materialNetwork with
  | none => s
  | some net =>
    { s with
      materialNetwork := some { net with nodes := net.nodes.erase (toPath nodeName.GetString) } }

/-- Source: `SetNodeType`. -/
def SetNodeType (s : HdPrmanHdMaterialNetwork2Interface) (nodeName nodeType : TfToken) :
    Except Fault HdPrmanHdMaterialNetwork2Interface :=
  match _GetOrCreateNode toPath s nodeName with
  | (s1, some node) => s1.store node (fun record => { record with nodeTypeId := nodeType })
  | (s1, none) => pure s1

/-- Source: `SetNodeParameterValue`. -/
def SetNodeParameterValue (s : HdPrmanHdMaterialNetwork2Interface)
    (nodeName paramName : TfToken) (value : VtValue) :
    Except Fault HdPrmanHdMaterialNetwork2Interface :=
  match _GetOrCreateNode toPath s nodeName with
  | (s1, some node) =>
    s1.store node
      (fun record => { record with parameters := record.parameters.assign paramName value })
  | (s1, none) => pure s1

/-- Source: `DeleteNodeParameter`. -/
def DeleteNodeParameter (s : HdPrmanHdMaterialNetwork2Interface)
    (nodeName paramName : TfToken) : Except Fault HdPrmanHdMaterialNetwork2Interface :=
  match _GetNode toPath s nodeName with
  | (s1, some node) =>
    s1.store node (fun record => { record with parameters := record.parameters.erase paramName })
  | (s1, none) => pure s1

/-- Source: `SetNodeInputConnection`. -/
def SetNodeInputConnection (s : HdPrmanHdMaterialNetwork2Interface)
    (nodeName inputName : TfToken) (connections : List InputConnection) :
    Except Fault HdPrmanHdMaterialNetwork2Interface :=
  match _GetOrCreateNode toPath s nodeName with
  | (s1, some node) =>
    let connections2 := connections.map
      (fun c => HdMaterialConnection2.mk (toPath c.upstreamNodeName.GetString)
        c.upstreamOutputName)
    s1.store node
      (fun record =>
        { record with inputConnections := record.inputConnections.assign inputName connections2 })
  | (s1, none) => pure s1

/-- Source: `DeleteNodeInputConnection`. -/
def DeleteNodeInputConnection (s : HdPrmanHdMaterialNetwork2Interface)
    (nodeName inputName : TfToken) : Except Fault HdPrmanHdMaterialNetwork2Interface :=
  match _GetNode toPath s nodeName with
  | (s1, some node) =>
    s1.store node
      (fun record => { record with inputConnections := record.inputConnections.erase inputName })
  | (s1, none) => pure s1

/-- The handle a lookup of `nodeName` in the node map of `net` yields: the
address of the element stored under the name's identifier, or null. -/
def handleOf (net : HdMaterialNetwork2) (nodeName : TfToken) : Option SdfPath :=
  match net.nodes.find (toPath nodeName.GetString) with
  | none => none
  | some _ => some (toPath nodeName.GetString)

/-- The cache entry agrees with the network: the cached handle is the node
stored at the cached name's identifier, or null when no node is stored there. -/
def Coherent (s : HdPrmanHdMaterialNetwork2Interface) : Prop :=
  match s.materialNetwork with
  | none => True
  | some net => s.lastAccessedNode = handleOf toPath net s.lastAccessedNodeName

/-- Coherence of a given state can be computed. -/
instance Coherent.instDecidable (s : HdPrmanHdMaterialNetwork2Interface) :
    Decidable (Coherent toPath s) :=
  match h : s.materialNetwork with
  | none => isTrue (by simp [Coherent, h])
  | some net =>
    decidable_of_iff (s.lastAccessedNode = handleOf toPath net s.lastAccessedNodeName)
      (by simp [Coherent, h])

/-- A flat name is valid for the translation `toPath` when the path built from
its string has that same string as its string form, so that translating the
name to its identifier and back gives the name. -/
def ValidName (nodeName : TfToken) : Prop :=
  TfToken.mk (toPath nodeName.GetString).GetString = nodeName

/-- Validity of a given name can be computed. -/
instance ValidName.instDecidable (nodeName : TfToken) : Decidable (ValidName toPath nodeName) :=
  decidable_of_iff (TfToken.mk (toPath nodeName.GetString).GetString = nodeName) Iff.rfl

/-- The string a `const char *` carries: `nodeName.data()` points at the
characters of the token, and a `std::string` built from that pointer ends
at the first NUL character. -/
def cString (text : String) : String :=
  String.mk (text.toList.takeWhile (fun c => c != Char.ofNat 0))

/-- A string without a NUL character, so that its C string is the whole string. -/
def NulFree (text : String) : Prop := Char.ofNat 0 ∉ text.toList

/-- Absence of a NUL character can be computed. -/
instance NulFree.instDecidable (text : String) : Decidable (NulFree text) :=
  inferInstanceAs (Decidable (Char.ofNat 0 ∉ text.toList))

/-- The identifier of a flat name as `_GetNode`, `_GetOrCreateNode` and
`DeleteNode` build it, `SdfPath(nodeName.data())`: the path is built by
`toPath` from the C string of the token. -/
def toIdentifier (nodeName : TfToken) : SdfPath := toPath (cString nodeName.GetString)

/-- The flat name of an identifier as `GetNodeNames` and
`GetNodeInputConnection` build it, `TfToken(path.GetString())`. -/
def toName (identifier : SdfPath) : TfToken := TfToken.mk identifier.GetString

/-- A network with two default-initialised nodes, at the paths `A` and `B`. -/
def sampleNetwork : HdMaterialNetwork2 :=
  ⟨(StdMap.empty.assign ⟨"A"⟩ default).assign ⟨"B"⟩ default⟩

/-- A node record with a type, one parameter and one connected input. -/
def authoredNode : HdMaterialNode2 :=
  ⟨⟨"foo"⟩, StdMap.empty.assign ⟨"p"⟩ (.held 5),
    StdMap.empty.assign ⟨"in"⟩ [⟨⟨"U"⟩, ⟨"out"⟩⟩]⟩

/-- A network with the node `authoredNode` at the path `A` and a
default-initialised node at the path `B`. -/
def authoredNetwork : HdMaterialNetwork2 :=
  ⟨(StdMap.empty.assign ⟨"A"⟩ authoredNode).assign ⟨"B"⟩ default⟩

/-- A call of one public operation with its arguments. -/
inductive Op where
  | GetNodeNames
  | GetNodeType (nodeName : TfToken)
  | GetAuthoredNodeParameterNames (nodeName : TfToken)
  | GetNodeParameterValue (nodeName paramName : TfToken)
  | GetNodeInputConnectionNames (nodeName : TfToken)
  | GetNodeInputConnection (nodeName inputName : TfToken)
  | DeleteNode (nodeName : TfToken)
  | SetNodeType (nodeName nodeType : TfToken)
  | SetNodeParameterValue (nodeName paramName : TfToken) (value : VtValue)
  | DeleteNodeParameter (nodeName paramName : TfToken)
  | SetNodeInputConnection (nodeName inputName : TfToken) (connections : List InputConnection)
  | DeleteNodeInputConnection (nodeName inputName : TfToken)
deriving DecidableEq

/-- The six read operations. -/
def Op.isRead : Op → Bool
  | .GetNodeNames => true
  | .GetNodeType _ => true
  | .GetAuthoredNodeParameterNames _ => true
  | .GetNodeParameterValue _ _ => true
  | .GetNodeInputConnectionNames _ => true
  | .GetNodeInputConnection _ _ => true
  | _ => false

/-- The value a public operation returns; `done` for the `void` operations. -/
inductive Ret where
  | done
  | tokens (names : List TfToken)
  | token (name : TfToken)
  | value (v : VtValue)
  | connections (cs : List InputConnection)
deriving DecidableEq

/-- One call of a public operation on the interface. -/
def step (s : HdPrmanHdMaterialNetwork2Interface) :
    Op → Except Fault (HdPrmanHdMaterialNetwork2Interface × Ret)
  | .GetNodeNames => pure (s, .tokens (GetNodeNames s))
  | .GetNodeType n => (GetNodeType toPath s n).map (fun r => (r.1, .token r.2))
  | .GetAuthoredNodeParameterNames n =>
    (GetAuthoredNodeParameterNames toPath s n).map (fun r => (r.1, .tokens r.2))
  | .GetNodeParameterValue n p =>
    (GetNodeParameterValue toPath s n p).map (fun r => (r.1, .value r.2))
  | .GetNodeInputConnectionNames n =>
    (GetNodeInputConnectionNames toPath s n).map (fun r => (r.1, .tokens r.2))
  | .GetNodeInputConnection n i =>
    (GetNodeInputConnection toPath s n i).map (fun r => (r.1, .connections r.2))
  | .DeleteNode n => pure (DeleteNode toPath s n, .done)
  | .SetNodeType n t => (SetNodeType toPath s n t).map (fun s1 => (s1, .done))
  | .SetNodeParameterValue n p v =>
    (SetNodeParameterValue toPath s n p v).map (fun s1 => (s1, .done))
  | .DeleteNodeParameter n p => (DeleteNodeParameter toPath s n p).map (fun s1 => (s1, .done))
  | .SetNodeInputConnection n i cs =>
    (SetNodeInputConnection toPath s n i cs).map (fun s1 => (s1, .done))
  | .DeleteNodeInputConnection n i =>
    (DeleteNodeInputConnection toPath s n i).map (fun s1 => (s1, .done))

/-- A sequence of calls, with the values they return in order. -/
def run (s : HdPrmanHdMaterialNetwork2Interface) :
    List Op → Except Fault (HdPrmanHdMaterialNetwork2Interface × List Ret)
  | [] => pure (s, [])
  | op :: rest => do
    let r ← step toPath s op
    let rs ← run r.1 rest
    pure (rs.1, r.2 :: rs.2)

end HdPrmanHdMaterialNetwork2Interface

/-! ## Reference editor

The editor of the specification with the cache left out: every call looks
the node up in the node map of the network. -/

namespace Reference

open HdPrmanHdMaterialNetwork2Interface

variable (toPath : String → SdfPath)

/-- Find(name): the record stored at the translated identifier, if any. -/
def findNode (network : Option HdMaterialNetwork2) (name : TfToken) : Option HdMaterialNode2 :=
  match network with
  | none => none
  | some net => net.nodes.find (toPath name.GetString)

/-- FindOrCreate(name) followed by the change `f` of the record: a missing node
is first inserted default-initialised; nothing happens without a network. -/
def createAndChange (network : Option HdMaterialNetwork2) (name : TfToken)
    (f : HdMaterialNode2 → HdMaterialNode2) : Option HdMaterialNetwork2 :=
  match network with
  | none => none
  | some net =>
    some ⟨net.nodes.assign (toPath name.GetString)
      (f ((net.nodes.find (toPath name.GetString)).getD default))⟩

/-- Find(name) followed by the change `f` of the record when the node is present. -/
def changeIfPresent (network : Option HdMaterialNetwork2) (name : TfToken)
    (f : HdMaterialNode2 → HdMaterialNode2) : Option HdMaterialNetwork2 :=
  match network with
  | none => none
  | some net =>
    match net.nodes.find (toPath name.GetString) with
    | none => some net
    | some record => some ⟨net.nodes.assign (toPath name.GetString) (f record)⟩

/-- One call of a public operation on the reference editor. -/
def step (network : Option HdMaterialNetwork2) : Op → Option HdMaterialNetwork2 × Ret
  | .GetNodeNames =>
    (network, .tokens (match network with
      | none => []
      | some net => net.nodes.keys.map (fun identifier => TfToken.mk identifier.GetString)))
  | .GetNodeType n =>
    (network, .token (match findNode toPath network n with
      | none => TfToken.empty
      | some record => record.nodeTypeId))
  | .GetAuthoredNodeParameterNames n =>
    (network, .tokens (match findNode toPath network n with
      | none => []
      | some record => record.parameters.keys))
  | .GetNodeParameterValue n p =>
    (network, .value (match findNode toPath network n with
      | none => VtValue.empty
      | some record => (record.parameters.find p).getD VtValue.empty))
  | .GetNodeInputConnectionNames n =>
    (network, .tokens (match findNode toPath network n with
      | none => []
      | some record => record.inputConnections.keys))
  | .GetNodeInputConnection n i =>
    (network, .connections (match findNode toPath network n with
      | none => []
      | some record =>
        ((record.inputConnections.find i).getD []).map
          (fun c => InputConnection.mk (TfToken.mk c.upstreamNode.GetString)
            c.upstreamOutputName)))
  | .DeleteNode n =>
    (match network with
      | none => none
      | some net => some ⟨net.nodes.erase (toPath n.GetString)⟩, .done)
  | .SetNodeType n t =>
    (createAndChange toPath network n (fun record => { record with nodeTypeId := t }), .done)
  | .SetNodeParameterValue n p v =>
    (createAndChange toPath network n
      (fun record => { record with parameters := record.parameters.assign p v }), .done)
  | .DeleteNodeParameter n p =>
    (changeIfPresent toPath network n
      (fun record => { record with parameters := record.parameters.erase p }), .done)
  | .SetNodeInputConnection n i cs =>
    (createAndChange toPath network n
      (fun record => { record with
        inputConnections := record.inputConnections.assign i
          (cs.map (fun c => HdMaterialConnection2.mk (toPath c.upstreamNodeName.GetString)
            c.upstreamOutputName)) }), .done)
  | .DeleteNodeInputConnection n i =>
    (changeIfPresent toPath network n
      (fun record => { record with inputConnections := record.inputConnections.erase i }), .done)

/-- A sequence of calls on the reference editor, with the values they return. -/
def run (network : Option HdMaterialNetwork2) : List Op → Option HdMaterialNetwork2 × List Ret
  | [] => (network, [])
  | op :: rest =>
    let r := step toPath network op
    let rs := run r.1 rest
    (rs.1, r.2 :: rs.2)

end Reference

/-! ## Facts about `std::map` -/

theorem SdfPath.eq_of_GetString (a b : SdfPath) (h : a.GetString = b.GetString) : a = b := by
  cases a; cases b; simp_all

theorem findEntry_insertEntry_self {K V : Type} [LinearOrder K] (k : K) (v : V)
    (l : List (K × V)) : findEntry k (insertEntry k v l) = some v := by
  induction l with
  | nil => simp [insertEntry, findEntry]
  | cons e rest ih =>
    unfold insertEntry
    split_ifs with h1 h2
    · simp [findEntry]
    · simp [findEntry]
    · have h3 : ¬ e.1 = k := fun hh => h2 hh.symm
      simp [findEntry, h3, ih]

theorem findEntry_insertEntry_ne {K V : Type} [LinearOrder K] (k j : K) (v : V)
    (l : List (K × V)) (hj : j ≠ k) : findEntry j (insertEntry k v l) = findEntry j l := by
  have hkj : ¬ k = j := fun hh => hj hh.symm
  induction l with
  | nil => simp [insertEntry, findEntry, hkj]
  | cons e rest ih =>
    unfold insertEntry
    split_ifs with h1 h2
    · simp [findEntry, hkj]
    · have h3 : ¬ e.1 = j := fun hh => hkj (h2.trans hh)
      simp [findEntry, hkj, h3]
    · by_cases h4 : e.1 = j
      · simp [findEntry, h4]
      · simp [findEntry, h4, ih]

theorem findEntry_eraseEntry_self {K V : Type} [LinearOrder K] (k : K) (l : List (K × V)) :
    findEntry k (eraseEntry k l) = none := by
  induction l with
  | nil => simp [eraseEntry, findEntry]
  | cons e rest ih =>
    unfold eraseEntry
    split_ifs with h1
    · exact ih
    · simp [findEntry, h1, ih]

theorem findEntry_eraseEntry_ne {K V : Type} [LinearOrder K] (k j : K) (l : List (K × V))
    (hj : j ≠ k) : findEntry j (eraseEntry k l) = findEntry j l := by
  induction l with
  | nil => simp [eraseEntry, findEntry]
  | cons e rest ih =>
    unfold eraseEntry
    split_ifs with h1
    · have h3 : ¬ e.1 = j := fun hh => hj (hh.symm.trans h1)
      simp [findEntry, h3, ih]
    · by_cases h4 : e.1 = j
      · simp [findEntry, h4]
      · simp [findEntry, h4, ih]

theorem findEntry_eq_none_iff {K V : Type} [LinearOrder K] (k : K) (l : List (K × V)) :
    findEntry k l = none ↔ k ∉ l.map Prod.fst := by
  induction l with
  | nil => simp [findEntry]
  | cons e rest ih =>
    by_cases h : e.1 = k
    · simp [findEntry, h]
    · have h2 : ¬ k = e.1 := fun hh => h hh.symm
      simp only [findEntry, h, if_false, ih, List.map_cons, List.mem_cons, not_or]
      tauto

theorem eraseEntry_of_not_mem {K V : Type} [LinearOrder K] (k : K) (l : List (K × V))
    (h : k ∉ l.map Prod.fst) : eraseEntry k l = l := by
  induction l with
  | nil => simp [eraseEntry]
  | cons e rest ih =>
    simp only [List.map_cons, List.mem_cons, not_or] at h
    have h1 : ¬ e.1 = k := fun hh => h.1 hh.symm
    simp [eraseEntry, h1, ih h.2]

theorem keys_eraseEntry {K V : Type} [LinearOrder K] (k : K) (l : List (K × V)) :
    (eraseEntry k l).map Prod.fst = (l.map Prod.fst).filter (fun x => decide (x ≠ k)) := by
  induction l with
  | nil => simp [eraseEntry]
  | cons e rest ih =>
    by_cases h : e.1 = k
    · simp [eraseEntry, h, ih]
    · simp [eraseEntry, h, ih]

theorem keys_insertEntry_of_mem {K V : Type} [LinearOrder K] (k : K) (v : V)
    (l : List (K × V)) (hl : (l.map Prod.fst).Pairwise (· < ·)) (hk : k ∈ l.map Prod.fst) :
    (insertEntry k v l).map Prod.fst = l.map Prod.fst := by
  induction l with
  | nil => simp at hk
  | cons e rest ih =>
    simp only [List.map_cons, List.pairwise_cons] at hl
    simp only [List.map_cons, List.mem_cons] at hk
    unfold insertEntry
    split_ifs with h1 h2
    · exfalso
      rcases hk with hk | hk
      · exact absurd h1 (hk ▸ lt_irrefl _)
      · exact absurd (lt_trans h1 (hl.1 k hk)) (lt_irrefl _)
    · simp [h2]
    · rcases hk with hk | hk
      · exact absurd hk h2
      · simp [ih hl.2 hk]

theorem keys_insertEntry_nil {K V : Type} [LinearOrder K] (k : K) (v : V) :
    (insertEntry k v ([] : List (K × V))).map Prod.fst = [k] := by
  simp [insertEntry]

theorem mem_keys_insertEntry {K V : Type} [LinearOrder K] (k : K) (v : V) (l : List (K × V)) :
    k ∈ (insertEntry k v l).map Prod.fst := by
  have h := findEntry_insertEntry_self k v l
  by_contra hc
  rw [(findEntry_eq_none_iff k _).mpr hc] at h
  exact absurd h (by simp)

namespace StdMap

variable {K V : Type} [LinearOrder K]

theorem ext_entries (a b : StdMap K V) (h : a.entries = b.entries) : a = b := by
  cases a; cases b; simp_all

theorem find_empty (k : K) : (empty : StdMap K V).find k = none := rfl

theorem find_assign_self (m : StdMap K V) (k : K) (v : V) : (m.assign k v).find k = some v :=
  findEntry_insertEntry_self k v m.entries

theorem find_assign_ne (m : StdMap K V) (k j : K) (v : V) (hj : j ≠ k) :
    (m.assign k v).find j = m.find j :=
  findEntry_insertEntry_ne k j v m.entries hj

theorem find_erase_self (m : StdMap K V) (k : K) : (m.erase k).find k = none :=
  findEntry_eraseEntry_self k m.entries

theorem find_erase_ne (m : StdMap K V) (k j : K) (hj : j ≠ k) :
    (m.erase k).find j = m.find j :=
  findEntry_eraseEntry_ne k j m.entries hj

theorem find_eq_none_iff (m : StdMap K V) (k : K) : m.find k = none ↔ k ∉ m.keys :=
  findEntry_eq_none_iff k m.entries

theorem erase_of_find_none (m : StdMap K V) (k : K) (h : m.find k = none) : m.erase k = m :=
  ext_entries _ _ (eraseEntry_of_not_mem k m.entries ((find_eq_none_iff m k).mp h))

theorem keys_erase (m : StdMap K V) (k : K) :
    (m.erase k).keys = m.keys.filter (fun x => decide (x ≠ k)) :=
  keys_eraseEntry k m.entries

theorem not_mem_keys_erase (m : StdMap K V) (k : K) : k ∉ (m.erase k).keys :=
  (find_eq_none_iff _ k).mp (find_erase_self m k)

theorem keys_assign_of_find (m : StdMap K V) (k : K) (v w : V) (h : m.find k = some w) :
    (m.assign k v).keys = m.keys := by
  apply keys_insertEntry_of_mem k v m.entries m.ordered
  by_contra hc
  rw [(find_eq_none_iff m k).mpr hc] at h
  exact absurd h (by simp)

theorem mem_keys_assign (m : StdMap K V) (k : K) (v : V) : k ∈ (m.assign k v).keys :=
  mem_keys_insertEntry k v m.entries

theorem nodup_keys (m : StdMap K V) : m.keys.Nodup :=
  List.Pairwise.imp (fun h => ne_of_lt h) m.ordered

theorem count_keys_assign (m : StdMap K V) (k : K) (v : V) : (m.assign k v).keys.count k = 1 :=
  List.count_eq_one_of_mem (nodup_keys _) (mem_keys_assign m k v)

theorem find_subscript_self [Inhabited V] (m : StdMap K V) (k : K) :
    (m.subscript k).find k = some ((m.find k).getD default) := by
  unfold subscript
  cases h : m.find k with
  | none => simp [find_assign_self]
  | some w => simp [h]

theorem find_subscript_ne [Inhabited V] (m : StdMap K V) (k j : K) (hj : j ≠ k) :
    (m.subscript k).find j = m.find j := by
  unfold subscript
  cases h : m.find k with
  | none => simp [find_assign_ne m k j default hj]
  | some w => simp

theorem subscript_of_find [Inhabited V] (m : StdMap K V) (k : K) (w : V)
    (h : m.find k = some w) : m.subscript k = m := by
  unfold subscript
  simp [h]

theorem keys_subscript_empty [Inhabited V] (k : K) :
    ((empty : StdMap K V).subscript k).keys = [k] := rfl

end StdMap

/-! ## Facts about the lookup helpers -/

namespace HdPrmanHdMaterialNetwork2Interface

variable (toPath : String → SdfPath)

theorem load_live (net : HdMaterialNetwork2) (name : TfToken) (h : Option SdfPath)
    (node : SdfPath) (record : HdMaterialNode2) (hf : net.nodes.find node = some record) :
    load ⟨some net, name, h⟩ node = .ok record := by
  simp [load, hf]

theorem store_live (net : HdMaterialNetwork2) (name : TfToken) (h : Option SdfPath)
    (node : SdfPath) (record : HdMaterialNode2) (f : HdMaterialNode2 → HdMaterialNode2)
    (hf : net.nodes.find node = some record) :
    store ⟨some net, name, h⟩ node f
      = .ok ⟨some ⟨net.nodes.assign node (f record)⟩, name, h⟩ := by
  simp [store, hf]

theorem GetNode_hit (net : HdMaterialNetwork2) (name : TfToken) (h : Option SdfPath) :
    _GetNode toPath ⟨some net, name, h⟩ name = (⟨some net, name, h⟩, h) := by
  simp [_GetNode]

theorem GetNode_coherent (s : HdPrmanHdMaterialNetwork2Interface) (net : HdMaterialNetwork2)
    (nodeName : TfToken) (hnet : s.materialNetwork = some net) (hc : Coherent toPath s) :
    _GetNode toPath s nodeName
      = (⟨some net, nodeName, handleOf toPath net nodeName⟩, handleOf toPath net nodeName) := by
  obtain ⟨mn, name, h⟩ := s
  simp only at hnet
  subst hnet
  simp only [Coherent] at hc
  subst hc
  by_cases hn : nodeName = name
  · subst hn
    simp [_GetNode]
  · unfold _GetNode handleOf
    simp only [hn, if_false]
    cases hfind : net.nodes.find (toPath nodeName.GetString) <;> simp

theorem GetOrCreateNode_coherent (s : HdPrmanHdMaterialNetwork2Interface)
    (net : HdMaterialNetwork2) (nodeName : TfToken) (hnet : s.materialNetwork = some net)
    (hc : Coherent toPath s) :
    _GetOrCreateNode toPath s nodeName
      = (⟨some ⟨net.nodes.subscript (toPath nodeName.GetString)⟩, nodeName,
            some (toPath nodeName.GetString)⟩, some (toPath nodeName.GetString)) := by
  unfold _GetOrCreateNode
  rw [GetNode_coherent toPath s net nodeName hnet hc]
  unfold handleOf
  cases hfind : net.nodes.find (toPath nodeName.GetString) with
  | none => simp
  | some w => simp [StdMap.subscript_of_find _ _ w hfind]

theorem coherent_fresh_empty :
    Coherent toPath (fresh (some ⟨StdMap.empty⟩)) := by
  simp [Coherent, fresh, handleOf, StdMap.find_empty]

theorem coherent_absent (s : HdPrmanHdMaterialNetwork2Interface)
    (hnet : s.materialNetwork = none) : Coherent toPath s := by
  simp [Coherent, hnet]

theorem coherent_live (net : HdMaterialNetwork2) (nodeName : TfToken)
    (record : HdMaterialNode2) (hf : net.nodes.find (toPath nodeName.GetString) = some record) :
    Coherent toPath ⟨some net, nodeName, some (toPath nodeName.GetString)⟩ := by
  simp [Coherent, handleOf, hf]

/-! ### Writes in a coherent state -/

theorem SetNodeType_coherent (s : HdPrmanHdMaterialNetwork2Interface)
    (net : HdMaterialNetwork2) (nodeName nodeType : TfToken)
    (hnet : s.materialNetwork = some net) (hc : Coherent toPath s) :
    SetNodeType toPath s nodeName nodeType
      = .ok ⟨some ⟨(net.nodes.subscript (toPath nodeName.GetString)).assign
              (toPath nodeName.GetString)
              { (net.nodes.find (toPath nodeName.GetString)).getD default with
                nodeTypeId := nodeType }⟩,
            nodeName, some (toPath nodeName.GetString)⟩ := by
  unfold SetNodeType
  rw [GetOrCreateNode_coherent toPath s net nodeName hnet hc]
  exact store_live _ _ _ _ _ _ (StdMap.find_subscript_self _ _)

theorem SetNodeParameterValue_coherent (s : HdPrmanHdMaterialNetwork2Interface)
    (net : HdMaterialNetwork2) (nodeName paramName : TfToken) (value : VtValue)
    (hnet : s.materialNetwork = some net) (hc : Coherent toPath s) :
    SetNodeParameterValue toPath s nodeName paramName value
      = .ok ⟨some ⟨(net.nodes.subscript (toPath nodeName.GetString)).assign
              (toPath nodeName.GetString)
              { (net.nodes.find (toPath nodeName.GetString)).getD default with
                parameters :=
                  ((net.nodes.find (toPath nodeName.GetString)).getD default).parameters.assign
                    paramName value }⟩,
            nodeName, some (toPath nodeName.GetString)⟩ := by
  unfold SetNodeParameterValue
  rw [GetOrCreateNode_coherent toPath s net nodeName hnet hc]
  exact store_live _ _ _ _ _ _ (StdMap.find_subscript_self _ _)

theorem SetNodeInputConnection_coherent (s : HdPrmanHdMaterialNetwork2Interface)
    (net : HdMaterialNetwork2) (nodeName inputName : TfToken)
    (connections : List InputConnection)
    (hnet : s.materialNetwork = some net) (hc : Coherent toPath s) :
    SetNodeInputConnection toPath s nodeName inputName connections
      = .ok ⟨some ⟨(net.nodes.subscript (toPath nodeName.GetString)).assign
              (toPath nodeName.GetString)
              { (net.nodes.find (toPath nodeName.GetString)).getD default with
                inputConnections :=
                  ((net.nodes.find (toPath nodeName.GetString)).getD
                    default).inputConnections.assign inputName
                    (connections.map (fun c =>
                      HdMaterialConnection2.mk (toPath c.upstreamNodeName.GetString)
                        c.upstreamOutputName)) }⟩,
            nodeName, some (toPath nodeName.GetString)⟩ := by
  unfold SetNodeInputConnection
  rw [GetOrCreateNode_coherent toPath s net nodeName hnet hc]
  exact store_live _ _ _ _ _ _ (StdMap.find_subscript_self _ _)

theorem DeleteNodeParameter_present (s : HdPrmanHdMaterialNetwork2Interface)
    (net : HdMaterialNetwork2) (nodeName paramName : TfToken) (record : HdMaterialNode2)
    (hnet : s.materialNetwork = some net) (hc : Coherent toPath s)
    (hf : net.nodes.find (toPath nodeName.GetString) = some record) :
    DeleteNodeParameter toPath s nodeName paramName
      = .ok ⟨some ⟨net.nodes.assign (toPath nodeName.GetString)
              { record with parameters := record.parameters.erase paramName }⟩,
            nodeName, some (toPath nodeName.GetString)⟩ := by
  unfold DeleteNodeParameter
  rw [GetNode_coherent toPath s net nodeName hnet hc]
  simp only [handleOf, hf]
  exact store_live _ _ _ _ _ _ hf

theorem DeleteNodeParameter_missing (s : HdPrmanHdMaterialNetwork2Interface)
    (net : HdMaterialNetwork2) (nodeName paramName : TfToken)
    (hnet : s.materialNetwork = some net) (hc : Coherent toPath s)
    (hf : net.nodes.find (toPath nodeName.GetString) = none) :
    DeleteNodeParameter toPath s nodeName paramName = .ok ⟨some net, nodeName, none⟩ := by
  unfold DeleteNodeParameter
  rw [GetNode_coherent toPath s net nodeName hnet hc]
  simp only [handleOf, hf]
  rfl

theorem DeleteNodeInputConnection_present (s : HdPrmanHdMaterialNetwork2Interface)
    (net : HdMaterialNetwork2) (nodeName inputName : TfToken) (record : HdMaterialNode2)
    (hnet : s.materialNetwork = some net) (hc : Coherent toPath s)
    (hf : net.nodes.find (toPath nodeName.GetString) = some record) :
    DeleteNodeInputConnection toPath s nodeName inputName
      = .ok ⟨some ⟨net.nodes.assign (toPath nodeName.GetString)
              { record with inputConnections := record.inputConnections.erase inputName }⟩,
            nodeName, some (toPath nodeName.GetString)⟩ := by
  unfold DeleteNodeInputConnection
  rw [GetNode_coherent toPath s net nodeName hnet hc]
  simp only [handleOf, hf]
  exact store_live _ _ _ _ _ _ hf

theorem DeleteNodeInputConnection_missing (s : HdPrmanHdMaterialNetwork2Interface)
    (net : HdMaterialNetwork2) (nodeName inputName : TfToken)
    (hnet : s.materialNetwork = some net) (hc : Coherent toPath s)
    (hf : net.nodes.find (toPath nodeName.GetString) = none) :
    DeleteNodeInputConnection toPath s nodeName inputName = .ok ⟨some net, nodeName, none⟩ := by
  unfold DeleteNodeInputConnection
  rw [GetNode_coherent toPath s net nodeName hnet hc]
  simp only [handleOf, hf]
  rfl

/-! ### Reads of the cached node -/

theorem GetNodeType_hit (net : HdMaterialNetwork2) (nodeName : TfToken) (node : SdfPath)
    (record : HdMaterialNode2) (hf : net.nodes.find node = some record) :
    GetNodeType toPath ⟨some net, nodeName, some node⟩ nodeName
      = .ok (⟨some net, nodeName, some node⟩, record.nodeTypeId) := by
  unfold GetNodeType
  rw [GetNode_hit]
  simp only [load_live net nodeName (some node) node record hf]
  rfl

theorem GetAuthoredNodeParameterNames_hit (net : HdMaterialNetwork2) (nodeName : TfToken)
    (node : SdfPath) (record : HdMaterialNode2) (hf : net.nodes.find node = some record) :
    GetAuthoredNodeParameterNames toPath ⟨some net, nodeName, some node⟩ nodeName
      = .ok (⟨some net, nodeName, some node⟩, record.parameters.keys) := by
  unfold GetAuthoredNodeParameterNames
  rw [GetNode_hit]
  simp only [load_live net nodeName (some node) node record hf]
  rfl

theorem GetNodeParameterValue_hit (net : HdMaterialNetwork2) (nodeName paramName : TfToken)
    (node : SdfPath) (record : HdMaterialNode2) (hf : net.nodes.find node = some record) :
    GetNodeParameterValue toPath ⟨some net, nodeName, some node⟩ nodeName paramName
      = .ok (⟨some net, nodeName, some node⟩,
          (record.parameters.find paramName).getD VtValue.empty) := by
  unfold GetNodeParameterValue
  rw [GetNode_hit]
  simp only [load_live net nodeName (some node) node record hf]
  simp only [bind, Except.bind]
  cases h : record.parameters.find paramName <;> simp [pure, Except.pure]

theorem GetNodeInputConnection_hit (net : HdMaterialNetwork2) (nodeName inputName : TfToken)
    (node : SdfPath) (record : HdMaterialNode2) (hf : net.nodes.find node = some record) :
    GetNodeInputConnection toPath ⟨some net, nodeName, some node⟩ nodeName inputName
      = .ok (⟨some net, nodeName, some node⟩,
          ((record.inputConnections.find inputName).getD []).map
            (fun c => InputConnection.mk (TfToken.mk c.upstreamNode.GetString)
              c.upstreamOutputName)) := by
  unfold GetNodeInputConnection
  rw [GetNode_hit]
  simp only [load_live net nodeName (some node) node record hf]
  simp only [bind, Except.bind]
  cases h : record.inputConnections.find inputName <;> simp [pure, Except.pure]

theorem GetNodeParameterValue_null (net : HdMaterialNetwork2) (nodeName paramName : TfToken) :
    GetNodeParameterValue toPath ⟨some net, nodeName, none⟩ nodeName paramName
      = .ok (⟨some net, nodeName, none⟩, VtValue.empty) := by
  unfold GetNodeParameterValue
  rw [GetNode_hit]
  rfl

theorem GetAuthoredNodeParameterNames_null (net : HdMaterialNetwork2) (nodeName : TfToken) :
    GetAuthoredNodeParameterNames toPath ⟨some net, nodeName, none⟩ nodeName
      = .ok (⟨some net, nodeName, none⟩, []) := by
  unfold GetAuthoredNodeParameterNames
  rw [GetNode_hit]
  rfl

theorem GetNodeNames_present (net : HdMaterialNetwork2) (name : TfToken)
    (h : Option SdfPath) :
    GetNodeNames ⟨some net, name, h⟩
      = net.nodes.keys.map (fun identifier => TfToken.mk identifier.GetString) := by
  simp [GetNodeNames, StdMap.keys, List.map_map, Function.comp_def]

theorem keys_erase_assign_empty (k : TfToken) (v : VtValue) :
    (((StdMap.empty : StdMap TfToken VtValue).assign k v).erase k).keys = [] := by
  simp [StdMap.keys, StdMap.erase, StdMap.assign, StdMap.empty, insertEntry, eraseEntry]

theorem GetNode_absent (s : HdPrmanHdMaterialNetwork2Interface) (nodeName : TfToken)
    (hnet : s.materialNetwork = none) : _GetNode toPath s nodeName = (s, none) := by
  simp [_GetNode, hnet]

theorem GetOrCreateNode_absent (s : HdPrmanHdMaterialNetwork2Interface) (nodeName : TfToken)
    (hnet : s.materialNetwork = none) : _GetOrCreateNode toPath s nodeName = (s, none) := by
  simp [_GetOrCreateNode, GetNode_absent toPath s nodeName hnet, hnet]

theorem GetNodeInputConnectionNames_hit (net : HdMaterialNetwork2) (nodeName : TfToken)
    (node : SdfPath) (record : HdMaterialNode2) (hf : net.nodes.find node = some record) :
    GetNodeInputConnectionNames toPath ⟨some net, nodeName, some node⟩ nodeName
      = .ok (⟨some net, nodeName, some node⟩, record.inputConnections.keys) := by
  unfold GetNodeInputConnectionNames
  rw [GetNode_hit]
  simp only [load_live net nodeName (some node) node record hf]
  rfl

/-! ### The state a write leaves behind -/

theorem SetNodeType_post (s : HdPrmanHdMaterialNetwork2Interface)
    (net : HdMaterialNetwork2) (nodeName nodeType : TfToken)
    (hnet : s.materialNetwork = some net) (hc : Coherent toPath s) :
    ∃ net1 record1, SetNodeType toPath s nodeName nodeType
        = .ok ⟨some net1, nodeName, some (toPath nodeName.GetString)⟩
      ∧ net1.nodes.find (toPath nodeName.GetString) = some record1
      ∧ net1.nodes = (net.nodes.subscript (toPath nodeName.GetString)).assign
          (toPath nodeName.GetString) record1
      ∧ record1 = { (net.nodes.find (toPath nodeName.GetString)).getD default with
          nodeTypeId := nodeType } :=
  ⟨_, _, SetNodeType_coherent toPath s net nodeName nodeType hnet hc,
    StdMap.find_assign_self _ _ _, rfl, rfl⟩

theorem SetNodeParameterValue_post (s : HdPrmanHdMaterialNetwork2Interface)
    (net : HdMaterialNetwork2) (nodeName paramName : TfToken) (value : VtValue)
    (hnet : s.materialNetwork = some net) (hc : Coherent toPath s) :
    ∃ net1 record1, SetNodeParameterValue toPath s nodeName paramName value
        = .ok ⟨some net1, nodeName, some (toPath nodeName.GetString)⟩
      ∧ net1.nodes.find (toPath nodeName.GetString) = some record1
      ∧ net1.nodes = (net.nodes.subscript (toPath nodeName.GetString)).assign
          (toPath nodeName.GetString) record1
      ∧ record1 = { (net.nodes.find (toPath nodeName.GetString)).getD default with
          parameters :=
            ((net.nodes.find (toPath nodeName.GetString)).getD default).parameters.assign
              paramName value } :=
  ⟨_, _, SetNodeParameterValue_coherent toPath s net nodeName paramName value hnet hc,
    StdMap.find_assign_self _ _ _, rfl, rfl⟩

theorem SetNodeInputConnection_post (s : HdPrmanHdMaterialNetwork2Interface)
    (net : HdMaterialNetwork2) (nodeName inputName : TfToken)
    (connections : List InputConnection)
    (hnet : s.materialNetwork = some net) (hc : Coherent toPath s) :
    ∃ net1 record1, SetNodeInputConnection toPath s nodeName inputName connections
        = .ok ⟨some net1, nodeName, some (toPath nodeName.GetString)⟩
      ∧ net1.nodes.find (toPath nodeName.GetString) = some record1
      ∧ net1.nodes = (net.nodes.subscript (toPath nodeName.GetString)).assign
          (toPath nodeName.GetString) record1
      ∧ record1 = { (net.nodes.find (toPath nodeName.GetString)).getD default with
          inputConnections :=
            ((net.nodes.find (toPath nodeName.GetString)).getD
              default).inputConnections.assign inputName
              (connections.map (fun c =>
                HdMaterialConnection2.mk (toPath c.upstreamNodeName.GetString)
                  c.upstreamOutputName)) } :=
  ⟨_, _, SetNodeInputConnection_coherent toPath s net nodeName inputName connections hnet hc,
    StdMap.find_assign_self _ _ _, rfl, rfl⟩

/-! ### Reads in any state and in a coherent state -/

theorem GetNode_network (s : HdPrmanHdMaterialNetwork2Interface) (nodeName : TfToken) :
    (_GetNode toPath s nodeName).1.materialNetwork = s.materialNetwork := by
  obtain ⟨mn, name, h⟩ := s
  cases mn with
  | none => rfl
  | some net =>
    by_cases hn : nodeName = name
    · simp [_GetNode, hn]
    · cases hf : net.nodes.find (toPath nodeName.GetString) <;> simp [_GetNode, hn, hf]

theorem GetNodeType_network (s s1 : HdPrmanHdMaterialNetwork2Interface) (nodeName r : TfToken)
    (h : GetNodeType toPath s nodeName = .ok (s1, r)) :
    s1.materialNetwork = s.materialNetwork := by
  have hg := GetNode_network toPath s nodeName
  unfold GetNodeType at h
  rcases hres : _GetNode toPath s nodeName with ⟨s0, _ | node⟩
  all_goals rw [hres] at h hg
  · simp only [pure, Except.pure, Except.ok.injEq, Prod.mk.injEq] at h
    rw [← h.1]; exact hg
  · simp only at h hg
    cases hl : s0.load node with
    | error e => rw [hl] at h; simp [bind, Except.bind] at h
    | ok record =>
      rw [hl] at h
      simp only [bind, Except.bind, pure, Except.pure, Except.ok.injEq, Prod.mk.injEq] at h
      rw [← h.1]; exact hg

theorem GetAuthoredNodeParameterNames_network (s s1 : HdPrmanHdMaterialNetwork2Interface)
    (nodeName : TfToken) (r : List TfToken)
    (h : GetAuthoredNodeParameterNames toPath s nodeName = .ok (s1, r)) :
    s1.materialNetwork = s.materialNetwork := by
  have hg := GetNode_network toPath s nodeName
  unfold GetAuthoredNodeParameterNames at h
  rcases hres : _GetNode toPath s nodeName with ⟨s0, _ | node⟩
  all_goals rw [hres] at h hg
  · simp only [pure, Except.pure, Except.ok.injEq, Prod.mk.injEq] at h
    rw [← h.1]; exact hg
  · simp only at h hg
    cases hl : s0.load node with
    | error e => rw [hl] at h; simp [bind, Except.bind] at h
    | ok record =>
      rw [hl] at h
      simp only [bind, Except.bind, pure, Except.pure, Except.ok.injEq, Prod.mk.injEq] at h
      rw [← h.1]; exact hg

theorem GetNodeInputConnectionNames_network (s s1 : HdPrmanHdMaterialNetwork2Interface)
    (nodeName : TfToken) (r : List TfToken)
    (h : GetNodeInputConnectionNames toPath s nodeName = .ok (s1, r)) :
    s1.materialNetwork = s.materialNetwork := by
  have hg := GetNode_network toPath s nodeName
  unfold GetNodeInputConnectionNames at h
  rcases hres : _GetNode toPath s nodeName with ⟨s0, _ | node⟩
  all_goals rw [hres] at h hg
  · simp only [pure, Except.pure, Except.ok.injEq, Prod.mk.injEq] at h
    rw [← h.1]; exact hg
  · simp only at h hg
    cases hl : s0.load node with
    | error e => rw [hl] at h; simp [bind, Except.bind] at h
    | ok record =>
      rw [hl] at h
      simp only [bind, Except.bind, pure, Except.pure, Except.ok.injEq, Prod.mk.injEq] at h
      rw [← h.1]; exact hg

theorem GetNodeParameterValue_network (s s1 : HdPrmanHdMaterialNetwork2Interface)
    (nodeName paramName : TfToken) (r : VtValue)
    (h : GetNodeParameterValue toPath s nodeName paramName = .ok (s1, r)) :
    s1.materialNetwork = s.materialNetwork := by
  have hg := GetNode_network toPath s nodeName
  unfold GetNodeParameterValue at h
  rcases hres : _GetNode toPath s nodeName with ⟨s0, _ | node⟩
  all_goals rw [hres] at h hg
  · simp only [pure, Except.pure, Except.ok.injEq, Prod.mk.injEq] at h
    rw [← h.1]; exact hg
  · simp only at h hg
    cases hl : s0.load node with
    | error e => rw [hl] at h; simp [bind, Except.bind] at h
    | ok record =>
      rw [hl] at h
      simp only [bind, Except.bind] at h
      cases hp : record.parameters.find paramName <;> rw [hp] at h <;>
        simp only [pure, Except.pure, Except.ok.injEq, Prod.mk.injEq] at h <;>
        (rw [← h.1]; exact hg)

theorem GetNodeInputConnection_network (s s1 : HdPrmanHdMaterialNetwork2Interface)
    (nodeName inputName : TfToken) (r : List InputConnection)
    (h : GetNodeInputConnection toPath s nodeName inputName = .ok (s1, r)) :
    s1.materialNetwork = s.materialNetwork := by
  have hg := GetNode_network toPath s nodeName
  unfold GetNodeInputConnection at h
  rcases hres : _GetNode toPath s nodeName with ⟨s0, _ | node⟩
  all_goals rw [hres] at h hg
  · simp only [pure, Except.pure, Except.ok.injEq, Prod.mk.injEq] at h
    rw [← h.1]; exact hg
  · simp only at h hg
    cases hl : s0.load node with
    | error e => rw [hl] at h; simp [bind, Except.bind] at h
    | ok record =>
      rw [hl] at h
      simp only [bind, Except.bind] at h
      cases hp : record.inputConnections.find inputName <;> rw [hp] at h <;>
        simp only [pure, Except.pure, Except.ok.injEq, Prod.mk.injEq] at h <;>
        (rw [← h.1]; exact hg)

theorem coherent_lookup (net : HdMaterialNetwork2) (nodeName : TfToken) :
    Coherent toPath ⟨some net, nodeName, handleOf toPath net nodeName⟩ := by
  simp [Coherent]

theorem load_handleOf (net : HdMaterialNetwork2) (nodeName name : TfToken)
    (h : Option SdfPath) (node : SdfPath) (hh : handleOf toPath net nodeName = some node) :
    ∃ record, load ⟨some net, name, h⟩ node = .ok record := by
  unfold handleOf at hh
  cases hf : net.nodes.find (toPath nodeName.GetString) with
  | none => rw [hf] at hh; simp at hh
  | some record =>
    rw [hf] at hh
    simp only [Option.some.injEq] at hh
    subst hh
    exact ⟨record, load_live net name h _ record hf⟩

theorem GetNodeType_coherent (s : HdPrmanHdMaterialNetwork2Interface)
    (net : HdMaterialNetwork2) (nodeName : TfToken)
    (hnet : s.materialNetwork = some net) (hc : Coherent toPath s) :
    ∃ r, GetNodeType toPath s nodeName
      = .ok (⟨some net, nodeName, handleOf toPath net nodeName⟩, r) := by
  unfold GetNodeType
  rw [GetNode_coherent toPath s net nodeName hnet hc]
  cases hh : handleOf toPath net nodeName with
  | none => exact ⟨_, rfl⟩
  | some node =>
    obtain ⟨record, hl⟩ := load_handleOf toPath net nodeName nodeName (some node) node hh
    simp only [hl]
    exact ⟨_, rfl⟩

theorem GetAuthoredNodeParameterNames_coherent (s : HdPrmanHdMaterialNetwork2Interface)
    (net : HdMaterialNetwork2) (nodeName : TfToken)
    (hnet : s.materialNetwork = some net) (hc : Coherent toPath s) :
    ∃ r, GetAuthoredNodeParameterNames toPath s nodeName
      = .ok (⟨some net, nodeName, handleOf toPath net nodeName⟩, r) := by
  unfold GetAuthoredNodeParameterNames
  rw [GetNode_coherent toPath s net nodeName hnet hc]
  cases hh : handleOf toPath net nodeName with
  | none => exact ⟨_, rfl⟩
  | some node =>
    obtain ⟨record, hl⟩ := load_handleOf toPath net nodeName nodeName (some node) node hh
    simp only [hl]
    exact ⟨_, rfl⟩

theorem GetNodeInputConnectionNames_coherent (s : HdPrmanHdMaterialNetwork2Interface)
    (net : HdMaterialNetwork2) (nodeName : TfToken)
    (hnet : s.materialNetwork = some net) (hc : Coherent toPath s) :
    ∃ r, GetNodeInputConnectionNames toPath s nodeName
      = .ok (⟨some net, nodeName, handleOf toPath net nodeName⟩, r) := by
  unfold GetNodeInputConnectionNames
  rw [GetNode_coherent toPath s net nodeName hnet hc]
  cases hh : handleOf toPath net nodeName with
  | none => exact ⟨_, rfl⟩
  | some node =>
    obtain ⟨record, hl⟩ := load_handleOf toPath net nodeName nodeName (some node) node hh
    simp only [hl]
    exact ⟨_, rfl⟩

theorem GetNodeParameterValue_coherent (s : HdPrmanHdMaterialNetwork2Interface)
    (net : HdMaterialNetwork2) (nodeName paramName : TfToken)
    (hnet : s.materialNetwork = some net) (hc : Coherent toPath s) :
    ∃ r, GetNodeParameterValue toPath s nodeName paramName
      = .ok (⟨some net, nodeName, handleOf toPath net nodeName⟩, r) := by
  unfold GetNodeParameterValue
  rw [GetNode_coherent toPath s net nodeName hnet hc]
  cases hh : handleOf toPath net nodeName with
  | none => exact ⟨_, rfl⟩
  | some node =>
    obtain ⟨record, hl⟩ := load_handleOf toPath net nodeName nodeName (some node) node hh
    simp only [hl, bind, Except.bind]
    cases hp : record.parameters.find paramName <;> exact ⟨_, rfl⟩

theorem GetNodeInputConnection_coherent (s : HdPrmanHdMaterialNetwork2Interface)
    (net : HdMaterialNetwork2) (nodeName inputName : TfToken)
    (hnet : s.materialNetwork = some net) (hc : Coherent toPath s) :
    ∃ r, GetNodeInputConnection toPath s nodeName inputName
      = .ok (⟨some net, nodeName, handleOf toPath net nodeName⟩, r) := by
  unfold GetNodeInputConnection
  rw [GetNode_coherent toPath s net nodeName hnet hc]
  cases hh : handleOf toPath net nodeName with
  | none => exact ⟨_, rfl⟩
  | some node =>
    obtain ⟨record, hl⟩ := load_handleOf toPath net nodeName nodeName (some node) node hh
    simp only [hl, bind, Except.bind]
    cases hp : record.inputConnections.find inputName <;> exact ⟨_, rfl⟩

/-! ### Single calls -/

theorem step_read_network (s s1 : HdPrmanHdMaterialNetwork2Interface) (op : Op) (r : Ret)
    (hread : op.isRead = true) (h : step toPath s op = .ok (s1, r)) :
    s1.materialNetwork = s.materialNetwork := by
  cases op with
  | GetNodeNames =>
    simp only [step, pure, Except.pure, Except.ok.injEq, Prod.mk.injEq] at h
    rw [← h.1]
  | GetNodeType n =>
    simp only [step] at h
    cases hres : GetNodeType toPath s n with
    | error e => rw [hres] at h; simp [Except.map] at h
    | ok res =>
      rw [hres] at h
      simp only [Except.map, Except.ok.injEq, Prod.mk.injEq] at h
      rw [← h.1]
      exact GetNodeType_network toPath s res.1 n res.2 hres
  | GetAuthoredNodeParameterNames n =>
    simp only [step] at h
    cases hres : GetAuthoredNodeParameterNames toPath s n with
    | error e => rw [hres] at h; simp [Except.map] at h
    | ok res =>
      rw [hres] at h
      simp only [Except.map, Except.ok.injEq, Prod.mk.injEq] at h
      rw [← h.1]
      exact GetAuthoredNodeParameterNames_network toPath s res.1 n res.2 hres
  | GetNodeParameterValue n p =>
    simp only [step] at h
    cases hres : GetNodeParameterValue toPath s n p with
    | error e => rw [hres] at h; simp [Except.map] at h
    | ok res =>
      rw [hres] at h
      simp only [Except.map, Except.ok.injEq, Prod.mk.injEq] at h
      rw [← h.1]
      exact GetNodeParameterValue_network toPath s res.1 n p res.2 hres
  | GetNodeInputConnectionNames n =>
    simp only [step] at h
    cases hres : GetNodeInputConnectionNames toPath s n with
    | error e => rw [hres] at h; simp [Except.map] at h
    | ok res =>
      rw [hres] at h
      simp only [Except.map, Except.ok.injEq, Prod.mk.injEq] at h
      rw [← h.1]
      exact GetNodeInputConnectionNames_network toPath s res.1 n res.2 hres
  | GetNodeInputConnection n i =>
    simp only [step] at h
    cases hres : GetNodeInputConnection toPath s n i with
    | error e => rw [hres] at h; simp [Except.map] at h
    | ok res =>
      rw [hres] at h
      simp only [Except.map, Except.ok.injEq, Prod.mk.injEq] at h
      rw [← h.1]
      exact GetNodeInputConnection_network toPath s res.1 n i res.2 hres
  | DeleteNode n => simp [Op.isRead] at hread
  | SetNodeType n t => simp [Op.isRead] at hread
  | SetNodeParameterValue n p v => simp [Op.isRead] at hread
  | DeleteNodeParameter n p => simp [Op.isRead] at hread
  | SetNodeInputConnection n i cs => simp [Op.isRead] at hread
  | DeleteNodeInputConnection n i => simp [Op.isRead] at hread

theorem step_read_absent (s : HdPrmanHdMaterialNetwork2Interface) (op : Op)
    (hnet : s.materialNetwork = none) (hread : op.isRead = true) :
    ∃ r, step toPath s op = .ok (s, r) := by
  cases op with
  | GetNodeNames => exact ⟨_, rfl⟩
  | GetNodeType n =>
    simp only [step, GetNodeType, GetNode_absent toPath s n hnet]
    exact ⟨_, rfl⟩
  | GetAuthoredNodeParameterNames n =>
    simp only [step, GetAuthoredNodeParameterNames, GetNode_absent toPath s n hnet]
    exact ⟨_, rfl⟩
  | GetNodeParameterValue n p =>
    simp only [step, GetNodeParameterValue, GetNode_absent toPath s n hnet]
    exact ⟨_, rfl⟩
  | GetNodeInputConnectionNames n =>
    simp only [step, GetNodeInputConnectionNames, GetNode_absent toPath s n hnet]
    exact ⟨_, rfl⟩
  | GetNodeInputConnection n i =>
    simp only [step, GetNodeInputConnection, GetNode_absent toPath s n hnet]
    exact ⟨_, rfl⟩
  | DeleteNode n => simp [Op.isRead] at hread
  | SetNodeType n t => simp [Op.isRead] at hread
  | SetNodeParameterValue n p v => simp [Op.isRead] at hread
  | DeleteNodeParameter n p => simp [Op.isRead] at hread
  | SetNodeInputConnection n i cs => simp [Op.isRead] at hread
  | DeleteNodeInputConnection n i => simp [Op.isRead] at hread

theorem step_coherent (s : HdPrmanHdMaterialNetwork2Interface) (net : HdMaterialNetwork2)
    (op : Op) (hnet : s.materialNetwork = some net) (hc : Coherent toPath s)
    (hop : ∀ m, op ≠ Op.DeleteNode m) :
    ∃ s1 r net1, step toPath s op = .ok (s1, r) ∧ s1.materialNetwork = some net1
      ∧ (op.isRead = true → net1 = net) ∧ Coherent toPath s1 := by
  cases op with
  | GetNodeNames => exact ⟨s, _, net, rfl, hnet, fun _ => rfl, hc⟩
  | GetNodeType n =>
    obtain ⟨r, h⟩ := GetNodeType_coherent toPath s net n hnet hc
    exact ⟨_, _, net, congrArg (Except.map _) h, rfl, fun _ => rfl, coherent_lookup toPath net n⟩
  | GetAuthoredNodeParameterNames n =>
    obtain ⟨r, h⟩ := GetAuthoredNodeParameterNames_coherent toPath s net n hnet hc
    exact ⟨_, _, net, congrArg (Except.map _) h, rfl, fun _ => rfl, coherent_lookup toPath net n⟩
  | GetNodeParameterValue n p =>
    obtain ⟨r, h⟩ := GetNodeParameterValue_coherent toPath s net n p hnet hc
    exact ⟨_, _, net, congrArg (Except.map _) h, rfl, fun _ => rfl, coherent_lookup toPath net n⟩
  | GetNodeInputConnectionNames n =>
    obtain ⟨r, h⟩ := GetNodeInputConnectionNames_coherent toPath s net n hnet hc
    exact ⟨_, _, net, congrArg (Except.map _) h, rfl, fun _ => rfl, coherent_lookup toPath net n⟩
  | GetNodeInputConnection n i =>
    obtain ⟨r, h⟩ := GetNodeInputConnection_coherent toPath s net n i hnet hc
    exact ⟨_, _, net, congrArg (Except.map _) h, rfl, fun _ => rfl, coherent_lookup toPath net n⟩
  | DeleteNode n => exact absurd rfl (hop n)
  | SetNodeType n t =>
    obtain ⟨net1, record1, hset, hfind, -, -⟩ := SetNodeType_post toPath s net n t hnet hc
    exact ⟨_, _, net1, congrArg (Except.map _) hset, rfl, fun hr => by simp [Op.isRead] at hr,
      coherent_live toPath net1 n record1 hfind⟩
  | SetNodeParameterValue n p v =>
    obtain ⟨net1, record1, hset, hfind, -, -⟩ :=
      SetNodeParameterValue_post toPath s net n p v hnet hc
    exact ⟨_, _, net1, congrArg (Except.map _) hset, rfl, fun hr => by simp [Op.isRead] at hr,
      coherent_live toPath net1 n record1 hfind⟩
  | SetNodeInputConnection n i cs =>
    obtain ⟨net1, record1, hset, hfind, -, -⟩ :=
      SetNodeInputConnection_post toPath s net n i cs hnet hc
    exact ⟨_, _, net1, congrArg (Except.map _) hset, rfl, fun hr => by simp [Op.isRead] at hr,
      coherent_live toPath net1 n record1 hfind⟩
  | DeleteNodeParameter n p =>
    cases hf : net.nodes.find (toPath n.GetString) with
    | none =>
      exact ⟨_, _, net,
        congrArg (Except.map _) (DeleteNodeParameter_missing toPath s net n p hnet hc hf), rfl,
        fun hr => by simp [Op.isRead] at hr, by simp [Coherent, handleOf, hf]⟩
    | some record =>
      exact ⟨_, _, _,
        congrArg (Except.map _) (DeleteNodeParameter_present toPath s net n p record hnet hc hf),
        rfl, fun hr => by simp [Op.isRead] at hr,
        coherent_live toPath _ n _ (StdMap.find_assign_self _ _ _)⟩
  | DeleteNodeInputConnection n i =>
    cases hf : net.nodes.find (toPath n.GetString) with
    | none =>
      exact ⟨_, _, net,
        congrArg (Except.map _) (DeleteNodeInputConnection_missing toPath s net n i hnet hc hf),
        rfl, fun hr => by simp [Op.isRead] at hr, by simp [Coherent, handleOf, hf]⟩
    | some record =>
      exact ⟨_, _, _,
        congrArg (Except.map _)
          (DeleteNodeInputConnection_present toPath s net n i record hnet hc hf),
        rfl, fun hr => by simp [Op.isRead] at hr,
        coherent_live toPath _ n _ (StdMap.find_assign_self _ _ _)⟩

theorem DeleteNode_coherent_iff (s : HdPrmanHdMaterialNetwork2Interface)
    (net : HdMaterialNetwork2) (m : TfToken)
    (hnet : s.materialNetwork = some net) (hc : Coherent toPath s) :
    Coherent toPath (DeleteNode toPath s m)
      ↔ ¬ (toPath m.GetString = toPath s.lastAccessedNodeName.GetString
          ∧ ∃ record, net.nodes.find (toPath s.lastAccessedNodeName.GetString) = some record) := by
  obtain ⟨mn, name, h⟩ := s
  simp only at hnet
  subst hnet
  simp only [Coherent] at hc
  subst hc
  simp only [DeleteNode, Coherent, handleOf]
  by_cases hk : toPath m.GetString = toPath name.GetString
  · rw [hk, StdMap.find_erase_self]
    cases hf : net.nodes.find (toPath name.GetString) <;> simp
  · rw [StdMap.find_erase_ne _ _ _ (fun hh => hk hh.symm)]
    simp [hk]

/-! ### Sequences of reads -/

theorem GetNodeNames_congr (s s1 : HdPrmanHdMaterialNetwork2Interface)
    (h : s1.materialNetwork = s.materialNetwork) : GetNodeNames s1 = GetNodeNames s := by
  unfold GetNodeNames
  rw [h]

theorem run_reads_network (ops : List Op) (hreads : ∀ op ∈ ops, op.isRead = true) :
    ∀ (s s1 : HdPrmanHdMaterialNetwork2Interface) (rs : List Ret),
      run toPath s ops = .ok (s1, rs) → s1.materialNetwork = s.materialNetwork := by
  induction ops with
  | nil =>
    intro s s1 rs h
    simp only [run, pure, Except.pure, Except.ok.injEq, Prod.mk.injEq] at h
    rw [← h.1]
  | cons op rest ih =>
    intro s s1 rs h
    have hop : op.isRead = true := hreads op (List.mem_cons_self _ _)
    have hrest : ∀ o ∈ rest, o.isRead = true := fun o ho => hreads o (List.mem_cons_of_mem _ ho)
    simp only [run, bind, Except.bind] at h
    cases hstep : step toPath s op with
    | error e => rw [hstep] at h; simp at h
    | ok r =>
      rw [hstep] at h
      simp only at h
      cases hrun : run toPath r.1 rest with
      | error e => rw [hrun] at h; simp at h
      | ok tail =>
        rw [hrun] at h
        simp only [pure, Except.pure, Except.ok.injEq, Prod.mk.injEq] at h
        rw [← h.1, ih hrest r.1 tail.1 tail.2 hrun]
        exact step_read_network toPath s r.1 op r.2 hop hstep

theorem run_reads_coherent (ops : List Op) (hreads : ∀ op ∈ ops, op.isRead = true) :
    ∀ (s : HdPrmanHdMaterialNetwork2Interface), Coherent toPath s →
      ∃ s1 rs, run toPath s ops = .ok (s1, rs) := by
  induction ops with
  | nil => intro s _; exact ⟨s, [], rfl⟩
  | cons op rest ih =>
    intro s hc
    have hop : op.isRead = true := hreads op (List.mem_cons_self _ _)
    have hrest : ∀ o ∈ rest, o.isRead = true := fun o ho => hreads o (List.mem_cons_of_mem _ ho)
    have hstep : ∃ s1 r, step toPath s op = .ok (s1, r) ∧ Coherent toPath s1 := by
      cases hnet : s.materialNetwork with
      | none =>
        obtain ⟨r, hr⟩ := step_read_absent toPath s op hnet hop
        exact ⟨s, r, hr, hc⟩
      | some net =>
        have hnd : ∀ m, op ≠ Op.DeleteNode m := by
          intro m hm
          rw [hm] at hop
          simp [Op.isRead] at hop
        obtain ⟨s1, r, _, hr, _, _, hc1⟩ := step_coherent toPath s net op hnet hc hnd
        exact ⟨s1, r, hr, hc1⟩
    obtain ⟨s1, r, hr, hc1⟩ := hstep
    obtain ⟨s2, rs, hrun⟩ := ih hrest s1 hc1
    refine ⟨s2, r :: rs, ?_⟩
    simp only [run, bind, Except.bind, hr, hrun]
    rfl

/-! ### The C string of a token -/

theorem cString_of_NulFree (text : String) (h : NulFree text) : cString text = text := by
  unfold cString
  have h1 : text.toList.takeWhile (fun c => c != Char.ofNat 0) = text.toList := by
    rw [List.takeWhile_eq_self_iff]
    intro c hc
    simp only [bne_iff_ne, ne_eq]
    intro h0
    exact h (h0 ▸ hc)
  rw [h1]
  rfl

theorem SetNodeType_names_fresh_empty (nodeName nodeType : TfToken) :
    ∃ s1, SetNodeType toPath (fresh (some ⟨StdMap.empty⟩)) nodeName nodeType = .ok s1
      ∧ GetNodeNames s1 = [TfToken.mk (toPath nodeName.GetString).GetString] := by
  refine ⟨_, SetNodeType_coherent toPath _ ⟨StdMap.empty⟩ nodeName nodeType rfl
    (coherent_fresh_empty toPath), ?_⟩
  rw [GetNodeNames_present]
  have hk : ((StdMap.empty : StdMap SdfPath HdMaterialNode2).subscript
      (toPath nodeName.GetString)).find (toPath nodeName.GetString) = some default := by
    rw [StdMap.find_subscript_self, StdMap.find_empty]
    rfl
  rw [StdMap.keys_assign_of_find _ _ _ _ hk, StdMap.keys_subscript_empty]
  rfl

/-! ## The claims -/

/-- C1 (cache transparency), evaluated where it fails: on a fresh editor over
the empty network the calls `SetNodeType("A","foo")`, `DeleteNode("A")`,
`GetNodeType("A")` end in a load through the cached handle of the erased
node, while the reference editor, which looks the node up on every call,
returns the empty identifier from the last call and ends with the empty
network. -/
theorem cache_transparency_broken_by_DeleteNode :
    run SdfPath.mk (fresh (some ⟨StdMap.empty⟩))
        [.SetNodeType ⟨"A"⟩ ⟨"foo"⟩, .DeleteNode ⟨"A"⟩, .GetNodeType ⟨"A"⟩]
      = .error .danglingNode
    ∧ Reference.run SdfPath.mk (some ⟨StdMap.empty⟩)
        [.SetNodeType ⟨"A"⟩ ⟨"foo"⟩, .DeleteNode ⟨"A"⟩, .GetNodeType ⟨"A"⟩]
      = (some ⟨StdMap.empty⟩, [.done, .done, .token TfToken.empty]) :=
  ⟨rfl, rfl⟩

/-- C2 (delete-node invalidates cache), evaluated where it fails: after
`SetNodeType("A","foo")` on a fresh editor over the empty network,
`DeleteNode("A")` empties the node map but leaves the cache slot as it was,
name `"A"` with the handle of the erased node, and `GetNodeType("A")` loads
through that handle instead of returning the empty identifier. -/
theorem DeleteNode_leaves_stale_cache :
    ∃ s1, SetNodeType SdfPath.mk (fresh (some ⟨StdMap.empty⟩)) ⟨"A"⟩ ⟨"foo"⟩ = .ok s1
      ∧ DeleteNode SdfPath.mk s1 ⟨"A"⟩ = ⟨some ⟨StdMap.empty⟩, ⟨"A"⟩, some ⟨"A"⟩⟩
      ∧ GetNodeType SdfPath.mk (DeleteNode SdfPath.mk s1 ⟨"A"⟩) ⟨"A"⟩ = .error .danglingNode :=
  ⟨_, rfl, rfl, rfl⟩

/-- C3 (create-on-write): for every valid node name `n` and type `t`,
`SetNodeType(n, t)` on a fresh editor over an empty network succeeds, after
which `GetNodeNames()` is exactly `[n]` and `GetNodeType(n)` returns `t`. -/
theorem SetNodeType_creates_on_empty_network (toPath : String → SdfPath)
    (n t : TfToken) (hn : ValidName toPath n) :
    ∃ s1, SetNodeType toPath (fresh (some ⟨StdMap.empty⟩)) n t = .ok s1
      ∧ GetNodeNames s1 = [n]
      ∧ GetNodeType toPath s1 n = .ok (s1, t) := by
  refine ⟨_, SetNodeType_coherent toPath _ ⟨StdMap.empty⟩ n t rfl
    (coherent_fresh_empty toPath), ?_, ?_⟩
  · rw [GetNodeNames_present]
    have hk : ((StdMap.empty : StdMap SdfPath HdMaterialNode2).subscript
        (toPath n.GetString)).find (toPath n.GetString) = some default := by
      rw [StdMap.find_subscript_self, StdMap.find_empty]
      rfl
    rw [StdMap.keys_assign_of_find _ _ _ _ hk, StdMap.keys_subscript_empty]
    simpa [ValidName] using hn
  · exact GetNodeType_hit toPath _ n _ _ (StdMap.find_assign_self _ _ _)

/-- C3 at the name `"A"` and the type `"foo"`, with paths built from the
string as it is. -/
theorem SetNodeType_creates_on_empty_network_witness :
    ValidName SdfPath.mk ⟨"A"⟩
    ∧ ∃ s1, SetNodeType SdfPath.mk (fresh (some ⟨StdMap.empty⟩)) ⟨"A"⟩ ⟨"foo"⟩ = .ok s1
      ∧ GetNodeNames s1 = [⟨"A"⟩]
      ∧ GetNodeType SdfPath.mk s1 ⟨"A"⟩ = .ok (s1, ⟨"foo"⟩) :=
  ⟨rfl, SetNodeType_creates_on_empty_network SdfPath.mk ⟨"A"⟩ ⟨"foo"⟩ rfl⟩

/-- C4 (a write always establishes its node), evaluated where it fails: the
state reached from a fresh editor over the empty network by
`SetNodeType("A","foo")`, `DeleteNode("A")` has no node; there
`SetNodeType("A","bar")` takes the cached handle of the erased node and stores
through it, so node `"A"` is not inserted again. -/
theorem write_after_DeleteNode_does_not_create :
    ∃ s, run SdfPath.mk (fresh (some ⟨StdMap.empty⟩))
          [.SetNodeType ⟨"A"⟩ ⟨"foo"⟩, .DeleteNode ⟨"A"⟩] = .ok (s, [.done, .done])
      ∧ GetNodeNames s = []
      ∧ _GetOrCreateNode SdfPath.mk s ⟨"A"⟩ = (s, some ⟨"A"⟩)
      ∧ SetNodeType SdfPath.mk s ⟨"A"⟩ ⟨"bar"⟩ = .error .danglingNode :=
  ⟨_, rfl, rfl, rfl, rfl⟩

/-- C5 (connection round-trip): in a state with a network whose cache entry
agrees with it, for every node name `n`, input name `i` and list `cs` of
connections whose upstream node names are valid,
`SetNodeInputConnection(n, i, cs)` succeeds and `GetNodeInputConnection(n, i)`
then returns exactly `cs`; nothing is assumed about what `i` held before or
about the upstream nodes being in the network. -/
theorem SetNodeInputConnection_then_get (toPath : String → SdfPath)
    (s : HdPrmanHdMaterialNetwork2Interface) (net : HdMaterialNetwork2)
    (n i : TfToken) (cs : List InputConnection)
    (hnet : s.materialNetwork = some net) (hc : Coherent toPath s)
    (hcs : ∀ c ∈ cs, ValidName toPath c.upstreamNodeName) :
    ∃ s1, SetNodeInputConnection toPath s n i cs = .ok s1
      ∧ GetNodeInputConnection toPath s1 n i = .ok (s1, cs) := by
  refine ⟨_, SetNodeInputConnection_coherent toPath s net n i cs hnet hc, ?_⟩
  refine (GetNodeInputConnection_hit toPath _ n i _ _ (StdMap.find_assign_self _ _ _)).trans ?_
  simp only [StdMap.find_assign_self, Option.getD_some, List.map_map]
  have hid : cs.map ((fun c : HdMaterialConnection2 =>
        InputConnection.mk (TfToken.mk c.upstreamNode.GetString) c.upstreamOutputName)
      ∘ (fun c : InputConnection =>
        HdMaterialConnection2.mk (toPath c.upstreamNodeName.GetString) c.upstreamOutputName))
      = cs := by
    conv_rhs => rw [← List.map_id cs]
    apply List.map_congr_left
    intro c hcmem
    have hv := hcs c hcmem
    cases c with
    | mk up out =>
      simp only [ValidName] at hv
      simp [hv]
  rw [hid]
  rfl

/-- C5 on a fresh editor over the empty network: the upstream node `"U"` is
not in the network. -/
theorem SetNodeInputConnection_then_get_witness :
    ∃ s1, SetNodeInputConnection SdfPath.mk (fresh (some ⟨StdMap.empty⟩)) ⟨"A"⟩ ⟨"in"⟩
          [⟨⟨"U"⟩, ⟨"out"⟩⟩] = .ok s1
      ∧ GetNodeInputConnection SdfPath.mk s1 ⟨"A"⟩ ⟨"in"⟩ = .ok (s1, [⟨⟨"U"⟩, ⟨"out"⟩⟩]) :=
  SetNodeInputConnection_then_get SdfPath.mk (fresh (some ⟨StdMap.empty⟩)) ⟨StdMap.empty⟩
    ⟨"A"⟩ ⟨"in"⟩ [⟨⟨"U"⟩, ⟨"out"⟩⟩] rfl (by decide)
    (by decide)

/-- C6 (parameter upsert): in a state with a network whose cache entry agrees
with it, for every node name `n`, parameter name `p` and value `v`,
`SetNodeParameterValue(n, p, v)` succeeds, after which
`GetNodeParameterValue(n, p)` returns `v` and `p` occurs exactly once in
`GetAuthoredNodeParameterNames(n)`, whether or not `p` was set before. -/
theorem SetNodeParameterValue_upsert (toPath : String → SdfPath)
    (s : HdPrmanHdMaterialNetwork2Interface) (net : HdMaterialNetwork2)
    (n p : TfToken) (v : VtValue)
    (hnet : s.materialNetwork = some net) (hc : Coherent toPath s) :
    ∃ s1, SetNodeParameterValue toPath s n p v = .ok s1
      ∧ GetNodeParameterValue toPath s1 n p = .ok (s1, v)
      ∧ ∃ names, GetAuthoredNodeParameterNames toPath s1 n = .ok (s1, names)
          ∧ names.count p = 1 := by
  refine ⟨_, SetNodeParameterValue_coherent toPath s net n p v hnet hc, ?_, ?_⟩
  · refine (GetNodeParameterValue_hit toPath _ n p _ _ (StdMap.find_assign_self _ _ _)).trans ?_
    simp only [StdMap.find_assign_self, Option.getD_some]
    rfl
  · exact ⟨_, GetAuthoredNodeParameterNames_hit toPath _ n _ _ (StdMap.find_assign_self _ _ _),
      StdMap.count_keys_assign _ _ _⟩

/-- C6 in the state after `SetNodeParameterValue("A","p",5)` on a fresh editor
over the empty network: the parameter `"p"` of `"A"` is already set there. -/
theorem SetNodeParameterValue_upsert_witness :
    ∃ s1, SetNodeParameterValue SdfPath.mk
          ⟨some ⟨(StdMap.empty.assign ⟨"A"⟩
              ⟨TfToken.empty, StdMap.empty.assign ⟨"p"⟩ (.held 5), StdMap.empty⟩)⟩,
            ⟨"A"⟩, some ⟨"A"⟩⟩ ⟨"A"⟩ ⟨"p"⟩ (.held 7) = .ok s1
      ∧ GetNodeParameterValue SdfPath.mk s1 ⟨"A"⟩ ⟨"p"⟩ = .ok (s1, .held 7)
      ∧ ∃ names, GetAuthoredNodeParameterNames SdfPath.mk s1 ⟨"A"⟩ = .ok (s1, names)
          ∧ names.count ⟨"p"⟩ = 1 :=
  SetNodeParameterValue_upsert SdfPath.mk _ _ ⟨"A"⟩ ⟨"p"⟩ (.held 7) rfl
    (by decide)

/-- C7 (delete-then-read-is-empty): in every state whose cache entry agrees
with the network, for every node name `n` and parameter name `p`,
`DeleteNodeParameter(n, p)` succeeds, after which `GetNodeParameterValue(n, p)`
returns the empty value and `p` is not among
`GetAuthoredNodeParameterNames(n)`; and on a fresh editor over an empty
network, `SetNodeParameterValue(n, p, v)` then `DeleteNodeParameter(n, p)`
leaves `GetAuthoredNodeParameterNames(n)` empty. -/
theorem DeleteNodeParameter_then_read_empty (toPath : String → SdfPath)
    (s : HdPrmanHdMaterialNetwork2Interface) (n p : TfToken) (hc : Coherent toPath s) :
    (∃ s1, DeleteNodeParameter toPath s n p = .ok s1
      ∧ GetNodeParameterValue toPath s1 n p = .ok (s1, VtValue.empty)
      ∧ ∃ names, GetAuthoredNodeParameterNames toPath s1 n = .ok (s1, names) ∧ p ∉ names)
    ∧ ∀ v, ∃ s1 s2,
        SetNodeParameterValue toPath (fresh (some ⟨StdMap.empty⟩)) n p v = .ok s1
        ∧ DeleteNodeParameter toPath s1 n p = .ok s2
        ∧ GetNodeParameterValue toPath s2 n p = .ok (s2, VtValue.empty)
        ∧ GetAuthoredNodeParameterNames toPath s2 n = .ok (s2, []) := by
  constructor
  · obtain ⟨mn, name, h⟩ := s
    cases mn with
    | none =>
      refine ⟨⟨none, name, h⟩, ?_, ?_, [], ?_, by simp⟩
      · simp [DeleteNodeParameter, GetNode_absent]
        rfl
      · simp [GetNodeParameterValue, GetNode_absent]
        rfl
      · simp [GetAuthoredNodeParameterNames, GetNode_absent]
        rfl
    | some net =>
      cases hf : net.nodes.find (toPath n.GetString) with
      | none =>
        exact ⟨_, DeleteNodeParameter_missing toPath _ net n p rfl hc hf,
          GetNodeParameterValue_null toPath net n p,
          [], GetAuthoredNodeParameterNames_null toPath net n, by simp⟩
      | some record =>
        refine ⟨_, DeleteNodeParameter_present toPath _ net n p record rfl hc hf, ?_, ?_⟩
        · refine (GetNodeParameterValue_hit toPath _ n p _ _
            (StdMap.find_assign_self _ _ _)).trans ?_
          simp only [StdMap.find_erase_self]
          rfl
        · exact ⟨_, GetAuthoredNodeParameterNames_hit toPath _ n _ _
            (StdMap.find_assign_self _ _ _), StdMap.not_mem_keys_erase _ _⟩
  · intro v
    have h1 := SetNodeParameterValue_coherent toPath (fresh (some ⟨StdMap.empty⟩))
      ⟨StdMap.empty⟩ n p v rfl (coherent_fresh_empty toPath)
    have h2 := DeleteNodeParameter_present toPath _ _ n p _ rfl
      (coherent_live toPath _ n _ (StdMap.find_assign_self _ _ _))
      (StdMap.find_assign_self
        ((StdMap.empty : StdMap SdfPath HdMaterialNode2).subscript (toPath n.GetString))
        (toPath n.GetString)
        { (default : HdMaterialNode2) with
          parameters := (StdMap.empty : StdMap TfToken VtValue).assign p v })
    refine ⟨_, _, h1, h2, ?_, ?_⟩
    · refine (GetNodeParameterValue_hit toPath _ n p _ _
        (StdMap.find_assign_self _ _ _)).trans ?_
      simp only [StdMap.find_erase_self]
      rfl
    · exact (GetAuthoredNodeParameterNames_hit toPath _ n _ _
        (StdMap.find_assign_self _ _ _)).trans
        (congrArg (fun names => Except.ok (_, names)) (keys_erase_assign_empty p v))

/-- C7 in the state after `SetNodeParameterValue("A","p",5)` on a fresh editor
over the empty network. -/
theorem DeleteNodeParameter_then_read_empty_witness :
    (∃ s1, DeleteNodeParameter SdfPath.mk
          ⟨some ⟨(StdMap.empty.assign ⟨"A"⟩
              ⟨TfToken.empty, StdMap.empty.assign ⟨"p"⟩ (.held 5), StdMap.empty⟩)⟩,
            ⟨"A"⟩, some ⟨"A"⟩⟩ ⟨"A"⟩ ⟨"p"⟩ = .ok s1
      ∧ GetNodeParameterValue SdfPath.mk s1 ⟨"A"⟩ ⟨"p"⟩ = .ok (s1, VtValue.empty)
      ∧ ∃ names, GetAuthoredNodeParameterNames SdfPath.mk s1 ⟨"A"⟩ = .ok (s1, names)
          ∧ (⟨"p"⟩ : TfToken) ∉ names)
    ∧ ∀ v, ∃ s1 s2,
        SetNodeParameterValue SdfPath.mk (fresh (some ⟨StdMap.empty⟩)) ⟨"A"⟩ ⟨"p"⟩ v = .ok s1
        ∧ DeleteNodeParameter SdfPath.mk s1 ⟨"A"⟩ ⟨"p"⟩ = .ok s2
        ∧ GetNodeParameterValue SdfPath.mk s2 ⟨"A"⟩ ⟨"p"⟩ = .ok (s2, VtValue.empty)
        ∧ GetAuthoredNodeParameterNames SdfPath.mk s2 ⟨"A"⟩ = .ok (s2, []) :=
  DeleteNodeParameter_then_read_empty SdfPath.mk _ ⟨"A"⟩ ⟨"p"⟩
    (by decide)

/-- C8 (field deletes never change the set of nodes): in every state whose
cache entry agrees with the network, for all names `n`, `p`, `i`,
`DeleteNodeParameter(n, p)` and `DeleteNodeInputConnection(n, i)` succeed and
leave `GetNodeNames()` as it was, so `n` is neither created nor removed. -/
theorem field_deletes_keep_GetNodeNames (toPath : String → SdfPath)
    (s : HdPrmanHdMaterialNetwork2Interface) (n p i : TfToken) (hc : Coherent toPath s) :
    (∃ s1, DeleteNodeParameter toPath s n p = .ok s1 ∧ GetNodeNames s1 = GetNodeNames s)
    ∧ (∃ s1, DeleteNodeInputConnection toPath s n i = .ok s1
        ∧ GetNodeNames s1 = GetNodeNames s) := by
  obtain ⟨mn, name, h⟩ := s
  cases mn with
  | none =>
    constructor
    · refine ⟨⟨none, name, h⟩, ?_, rfl⟩
      simp [DeleteNodeParameter, GetNode_absent]
      rfl
    · refine ⟨⟨none, name, h⟩, ?_, rfl⟩
      simp [DeleteNodeInputConnection, GetNode_absent]
      rfl
  | some net =>
    cases hf : net.nodes.find (toPath n.GetString) with
    | none =>
      exact ⟨⟨_, DeleteNodeParameter_missing toPath _ net n p rfl hc hf, rfl⟩,
        ⟨_, DeleteNodeInputConnection_missing toPath _ net n i rfl hc hf, rfl⟩⟩
    | some record =>
      constructor
      · refine ⟨_, DeleteNodeParameter_present toPath _ net n p record rfl hc hf, ?_⟩
        rw [GetNodeNames_present, GetNodeNames_present,
          StdMap.keys_assign_of_find _ _ _ _ hf]
      · refine ⟨_, DeleteNodeInputConnection_present toPath _ net n i record rfl hc hf, ?_⟩
        rw [GetNodeNames_present, GetNodeNames_present,
          StdMap.keys_assign_of_find _ _ _ _ hf]

/-- C8 in the state after `SetNodeParameterValue("A","p",5)` on a fresh editor
over the empty network: `"p"` is the only field of `"A"`, and `"B"` names no
node. -/
theorem field_deletes_keep_GetNodeNames_witness :
    ((∃ s1, DeleteNodeParameter SdfPath.mk
          ⟨some ⟨(StdMap.empty.assign ⟨"A"⟩
              ⟨TfToken.empty, StdMap.empty.assign ⟨"p"⟩ (.held 5), StdMap.empty⟩)⟩,
            ⟨"A"⟩, some ⟨"A"⟩⟩ ⟨"A"⟩ ⟨"p"⟩ = .ok s1 ∧ GetNodeNames s1 = [⟨"A"⟩])
      ∧ (∃ s1, DeleteNodeInputConnection SdfPath.mk
          ⟨some ⟨(StdMap.empty.assign ⟨"A"⟩
              ⟨TfToken.empty, StdMap.empty.assign ⟨"p"⟩ (.held 5), StdMap.empty⟩)⟩,
            ⟨"A"⟩, some ⟨"A"⟩⟩ ⟨"A"⟩ ⟨"x"⟩ = .ok s1 ∧ GetNodeNames s1 = [⟨"A"⟩]))
    ∧ ((∃ s1, DeleteNodeParameter SdfPath.mk
          ⟨some ⟨(StdMap.empty.assign ⟨"A"⟩
              ⟨TfToken.empty, StdMap.empty.assign ⟨"p"⟩ (.held 5), StdMap.empty⟩)⟩,
            ⟨"A"⟩, some ⟨"A"⟩⟩ ⟨"B"⟩ ⟨"p"⟩ = .ok s1 ∧ GetNodeNames s1 = [⟨"A"⟩])
      ∧ (∃ s1, DeleteNodeInputConnection SdfPath.mk
          ⟨some ⟨(StdMap.empty.assign ⟨"A"⟩
              ⟨TfToken.empty, StdMap.empty.assign ⟨"p"⟩ (.held 5), StdMap.empty⟩)⟩,
            ⟨"A"⟩, some ⟨"A"⟩⟩ ⟨"B"⟩ ⟨"x"⟩ = .ok s1 ∧ GetNodeNames s1 = [⟨"A"⟩])) :=
  ⟨field_deletes_keep_GetNodeNames SdfPath.mk _ ⟨"A"⟩ ⟨"p"⟩ ⟨"x"⟩
      (by decide),
    field_deletes_keep_GetNodeNames SdfPath.mk _ ⟨"B"⟩ ⟨"p"⟩ ⟨"x"⟩
      (by decide)⟩

/-- C9 (DeleteNode removes exactly one node): in every state with a network
and for every name `n`, after `DeleteNode(n)` the node map is the previous one
with the entry at the identifier of `n` erased: that identifier is no longer a
key, the remaining keys keep their order, every record stored at another
identifier is unchanged, and the node map is unchanged when `n` had no node.
The name `n` is absent from `GetNodeNames()` when `n` is valid, and also when
every stored identifier is the path built from its own string form. -/
theorem DeleteNode_removes_exactly_one (toPath : String → SdfPath)
    (s : HdPrmanHdMaterialNetwork2Interface) (net : HdMaterialNetwork2) (n : TfToken)
    (hnet : s.materialNetwork = some net) :
    ∃ net1, (DeleteNode toPath s n).materialNetwork = some net1
      ∧ net1.nodes = net.nodes.erase (toPath n.GetString)
      ∧ net1.nodes.find (toPath n.GetString) = none
      ∧ (ValidName toPath n ∨ (∀ q ∈ net.nodes.keys, toPath q.GetString = q)
          → n ∉ GetNodeNames (DeleteNode toPath s n))
      ∧ net1.nodes.keys = net.nodes.keys.filter (fun q => decide (q ≠ toPath n.GetString))
      ∧ (∀ q, q ≠ toPath n.GetString → net1.nodes.find q = net.nodes.find q)
      ∧ (net.nodes.find (toPath n.GetString) = none → net1.nodes = net.nodes) := by
  obtain ⟨mn, name, h⟩ := s
  simp only at hnet
  subst hnet
  refine ⟨⟨net.nodes.erase (toPath n.GetString)⟩, rfl, rfl, StdMap.find_erase_self _ _, ?_,
    StdMap.keys_erase _ _, fun q hq => StdMap.find_erase_ne _ _ q hq,
    fun hf => StdMap.erase_of_find_none _ _ hf⟩
  intro hn hmem
  have hnames : GetNodeNames (DeleteNode toPath ⟨some net, name, h⟩ n)
      = (net.nodes.erase (toPath n.GetString)).keys.map
          (fun identifier => TfToken.mk identifier.GetString) :=
    GetNodeNames_present _ _ _
  rw [hnames, List.mem_map] at hmem
  obtain ⟨q, hq, hqn⟩ := hmem
  have hqk : q = toPath n.GetString := by
    rcases hn with hn | hn
    · exact SdfPath.eq_of_GetString _ _ (congrArg TfToken.GetString (hqn.trans hn.symm))
    · have hqmem : q ∈ net.nodes.keys := by
        rw [StdMap.keys_erase] at hq
        exact (List.mem_filter.mp hq).1
      have hstr : q.GetString = n.GetString := congrArg TfToken.GetString hqn
      rw [← hstr]
      exact (hn q hqmem).symm
  rw [hqk] at hq
  exact StdMap.not_mem_keys_erase _ _ hq

/-- C9 at the network with the nodes `"A"` and `"B"`, deleting `"A"`. -/
theorem DeleteNode_removes_exactly_one_witness :
    ∃ net1, (DeleteNode SdfPath.mk ⟨some sampleNetwork, ⟨"A"⟩, some ⟨"A"⟩⟩
          ⟨"A"⟩).materialNetwork = some net1
      ∧ net1.nodes = sampleNetwork.nodes.erase ⟨"A"⟩
      ∧ net1.nodes.find ⟨"A"⟩ = none
      ∧ (ValidName SdfPath.mk ⟨"A"⟩ ∨ (∀ q ∈ sampleNetwork.nodes.keys, SdfPath.mk q.GetString = q)
          → (⟨"A"⟩ : TfToken) ∉ GetNodeNames
            (DeleteNode SdfPath.mk ⟨some sampleNetwork, ⟨"A"⟩, some ⟨"A"⟩⟩ ⟨"A"⟩))
      ∧ net1.nodes.keys = sampleNetwork.nodes.keys.filter (fun q => decide (q ≠ SdfPath.mk "A"))
      ∧ (∀ q, q ≠ SdfPath.mk "A" → net1.nodes.find q = sampleNetwork.nodes.find q)
      ∧ (sampleNetwork.nodes.find ⟨"A"⟩ = none → net1.nodes = sampleNetwork.nodes) :=
  DeleteNode_removes_exactly_one SdfPath.mk _ sampleNetwork ⟨"A"⟩ rfl

/-- C10 (absent-network safety): for an editor without a network and for all
arguments, every operation returns normally; the three list operations and
`GetNodeInputConnection` return the empty sequence, `GetNodeType` the empty
identifier, `GetNodeParameterValue` the empty value, and every read and write
leaves the editor state, cache slot included, as it was. -/
theorem absent_network_reads_default_writes_noop (toPath : String → SdfPath)
    (s : HdPrmanHdMaterialNetwork2Interface) (hnet : s.materialNetwork = none)
    (n p i t : TfToken) (v : VtValue) (cs : List InputConnection) :
    GetNodeNames s = []
    ∧ GetNodeType toPath s n = .ok (s, TfToken.empty)
    ∧ GetAuthoredNodeParameterNames toPath s n = .ok (s, [])
    ∧ GetNodeParameterValue toPath s n p = .ok (s, VtValue.empty)
    ∧ GetNodeInputConnectionNames toPath s n = .ok (s, [])
    ∧ GetNodeInputConnection toPath s n i = .ok (s, [])
    ∧ DeleteNode toPath s n = s
    ∧ SetNodeType toPath s n t = .ok s
    ∧ SetNodeParameterValue toPath s n p v = .ok s
    ∧ DeleteNodeParameter toPath s n p = .ok s
    ∧ SetNodeInputConnection toPath s n i cs = .ok s
    ∧ DeleteNodeInputConnection toPath s n i = .ok s := by
  have hg := GetNode_absent toPath s n hnet
  have hgc := GetOrCreateNode_absent toPath s n hnet
  refine ⟨?_, ?_, ?_, ?_, ?_, ?_, ?_, ?_, ?_, ?_, ?_, ?_⟩
  · simp [GetNodeNames, hnet]
  · unfold GetNodeType
    rw [hg]
    rfl
  · unfold GetAuthoredNodeParameterNames
    rw [hg]
    rfl
  · unfold GetNodeParameterValue
    rw [hg]
    rfl
  · unfold GetNodeInputConnectionNames
    rw [hg]
    rfl
  · unfold GetNodeInputConnection
    rw [hg]
    rfl
  · simp [DeleteNode, hnet]
  · unfold SetNodeType
    rw [hgc]
    rfl
  · unfold SetNodeParameterValue
    rw [hgc]
    rfl
  · unfold DeleteNodeParameter
    rw [hg]
    rfl
  · unfold SetNodeInputConnection
    rw [hgc]
    rfl
  · unfold DeleteNodeInputConnection
    rw [hg]
    rfl

/-- C10 at the editor constructed with a null network. -/
theorem absent_network_reads_default_writes_noop_witness :
    GetNodeNames (fresh none) = []
    ∧ GetNodeType SdfPath.mk (fresh none) ⟨"A"⟩ = .ok (fresh none, TfToken.empty)
    ∧ GetAuthoredNodeParameterNames SdfPath.mk (fresh none) ⟨"A"⟩ = .ok (fresh none, [])
    ∧ GetNodeParameterValue SdfPath.mk (fresh none) ⟨"A"⟩ ⟨"p"⟩ = .ok (fresh none, VtValue.empty)
    ∧ GetNodeInputConnectionNames SdfPath.mk (fresh none) ⟨"A"⟩ = .ok (fresh none, [])
    ∧ GetNodeInputConnection SdfPath.mk (fresh none) ⟨"A"⟩ ⟨"in"⟩ = .ok (fresh none, [])
    ∧ DeleteNode SdfPath.mk (fresh none) ⟨"A"⟩ = fresh none
    ∧ SetNodeType SdfPath.mk (fresh none) ⟨"A"⟩ ⟨"foo"⟩ = .ok (fresh none)
    ∧ SetNodeParameterValue SdfPath.mk (fresh none) ⟨"A"⟩ ⟨"p"⟩ (.held 5) = .ok (fresh none)
    ∧ DeleteNodeParameter SdfPath.mk (fresh none) ⟨"A"⟩ ⟨"p"⟩ = .ok (fresh none)
    ∧ SetNodeInputConnection SdfPath.mk (fresh none) ⟨"A"⟩ ⟨"in"⟩ [⟨⟨"U"⟩, ⟨"out"⟩⟩]
        = .ok (fresh none)
    ∧ DeleteNodeInputConnection SdfPath.mk (fresh none) ⟨"A"⟩ ⟨"in"⟩ = .ok (fresh none) :=
  absent_network_reads_default_writes_noop SdfPath.mk (fresh none) rfl
    ⟨"A"⟩ ⟨"p"⟩ ⟨"in"⟩ ⟨"foo"⟩ (.held 5) [⟨⟨"U"⟩, ⟨"out"⟩⟩]

/-- C11 (present-but-empty input is distinct from absent input): in a state
with a network whose cache entry agrees with it, for every node name `n` and
input name `i`, `SetNodeInputConnection(n, i, [])` succeeds, after which `i`
is among `GetNodeInputConnectionNames(n)` while `GetNodeInputConnection(n, i)`
is empty; a following `DeleteNodeInputConnection(n, i)` succeeds and `i` is no
longer among `GetNodeInputConnectionNames(n)`. -/
theorem empty_input_listed_until_deleted (toPath : String → SdfPath)
    (s : HdPrmanHdMaterialNetwork2Interface) (net : HdMaterialNetwork2) (n i : TfToken)
    (hnet : s.materialNetwork = some net) (hc : Coherent toPath s) :
    ∃ s1, SetNodeInputConnection toPath s n i [] = .ok s1
      ∧ (∃ names, GetNodeInputConnectionNames toPath s1 n = .ok (s1, names) ∧ i ∈ names)
      ∧ GetNodeInputConnection toPath s1 n i = .ok (s1, [])
      ∧ ∃ s2, DeleteNodeInputConnection toPath s1 n i = .ok s2
          ∧ ∃ names2, GetNodeInputConnectionNames toPath s2 n = .ok (s2, names2)
              ∧ i ∉ names2 := by
  obtain ⟨net1, record1, hset, hfind, -, hrec⟩ :=
    SetNodeInputConnection_post toPath s net n i [] hnet hc
  refine ⟨_, hset, ⟨_, GetNodeInputConnectionNames_hit toPath net1 n _ record1 hfind, ?_⟩, ?_,
    _, DeleteNodeInputConnection_present toPath _ net1 n i record1 rfl
      (coherent_live toPath net1 n record1 hfind) hfind,
    _, GetNodeInputConnectionNames_hit toPath _ n _ _ (StdMap.find_assign_self _ _ _),
    StdMap.not_mem_keys_erase _ _⟩
  · rw [hrec]
    exact StdMap.mem_keys_assign _ _ _
  · refine (GetNodeInputConnection_hit toPath net1 n i _ record1 hfind).trans ?_
    rw [hrec]
    simp only [StdMap.find_assign_self, Option.getD_some, List.map_nil]

/-- C11 on a fresh editor over the empty network, for node `"A"` and input
`"in"`. -/
theorem empty_input_listed_until_deleted_witness :
    ∃ s1, SetNodeInputConnection SdfPath.mk (fresh (some ⟨StdMap.empty⟩)) ⟨"A"⟩ ⟨"in"⟩ []
          = .ok s1
      ∧ (∃ names, GetNodeInputConnectionNames SdfPath.mk s1 ⟨"A"⟩ = .ok (s1, names)
          ∧ (⟨"in"⟩ : TfToken) ∈ names)
      ∧ GetNodeInputConnection SdfPath.mk s1 ⟨"A"⟩ ⟨"in"⟩ = .ok (s1, [])
      ∧ ∃ s2, DeleteNodeInputConnection SdfPath.mk s1 ⟨"A"⟩ ⟨"in"⟩ = .ok s2
          ∧ ∃ names2, GetNodeInputConnectionNames SdfPath.mk s2 ⟨"A"⟩ = .ok (s2, names2)
              ∧ (⟨"in"⟩ : TfToken) ∉ names2 :=
  empty_input_listed_until_deleted SdfPath.mk (fresh (some ⟨StdMap.empty⟩)) ⟨StdMap.empty⟩
    ⟨"A"⟩ ⟨"in"⟩ rfl (by decide)

/-- C14 (the cache contract of `_GetNode`): with a network present, for a name
`n` different from the cached name `_GetNode(n)` returns the result of looking
the identifier of `n` up in the node map, the handle of the node found or null,
and leaves the cache equal to `n` with that result, on a hit and on a miss
alike; for `n` equal to the cached name it returns the cached handle and
leaves the state unchanged. -/
theorem GetNode_cache_contract (toPath : String → SdfPath)
    (s : HdPrmanHdMaterialNetwork2Interface) (net : HdMaterialNetwork2) (n : TfToken)
    (hnet : s.materialNetwork = some net) :
    (n ≠ s.lastAccessedNodeName →
      (∀ record, net.nodes.find (toPath n.GetString) = some record →
        _GetNode toPath s n
          = (⟨some net, n, some (toPath n.GetString)⟩, some (toPath n.GetString)))
      ∧ (net.nodes.find (toPath n.GetString) = none →
        _GetNode toPath s n = (⟨some net, n, none⟩, none))
      ∧ (_GetNode toPath s n).1.lastAccessedNodeName = n
      ∧ (_GetNode toPath s n).1.lastAccessedNode = (_GetNode toPath s n).2
      ∧ (_GetNode toPath s n).2 = handleOf toPath net n)
    ∧ (n = s.lastAccessedNodeName → _GetNode toPath s n = (s, s.lastAccessedNode)) := by
  obtain ⟨mn, name, h⟩ := s
  simp only at hnet
  subst hnet
  constructor
  · intro hne
    have hne2 : ¬ n = name := hne
    refine ⟨?_, ?_, ?_, ?_, ?_⟩
    · intro record hf
      simp [_GetNode, hne2, hf]
    · intro hf
      simp [_GetNode, hne2, hf]
    · cases hf : net.nodes.find (toPath n.GetString) <;> simp [_GetNode, hne2, hf]
    · cases hf : net.nodes.find (toPath n.GetString) <;> simp [_GetNode, hne2, hf]
    · cases hf : net.nodes.find (toPath n.GetString) <;> simp [_GetNode, hne2, hf, handleOf]
  · intro heq
    have heq2 : n = name := heq
    subst heq2
    simp [_GetNode]

/-- C14 at the network with the nodes `"A"` and `"B"` and the cache holding
`"A"`, looking up `"B"`. -/
theorem GetNode_cache_contract_witness :
    ((⟨"B"⟩ : TfToken) ≠ ⟨"A"⟩ →
      (∀ record, sampleNetwork.nodes.find ⟨"B"⟩ = some record →
        _GetNode SdfPath.mk ⟨some sampleNetwork, ⟨"A"⟩, some ⟨"A"⟩⟩ ⟨"B"⟩
          = (⟨some sampleNetwork, ⟨"B"⟩, some ⟨"B"⟩⟩, some ⟨"B"⟩))
      ∧ (sampleNetwork.nodes.find ⟨"B"⟩ = none →
        _GetNode SdfPath.mk ⟨some sampleNetwork, ⟨"A"⟩, some ⟨"A"⟩⟩ ⟨"B"⟩
          = (⟨some sampleNetwork, ⟨"B"⟩, none⟩, none))
      ∧ (_GetNode SdfPath.mk ⟨some sampleNetwork, ⟨"A"⟩, some ⟨"A"⟩⟩
          ⟨"B"⟩).1.lastAccessedNodeName = ⟨"B"⟩
      ∧ (_GetNode SdfPath.mk ⟨some sampleNetwork, ⟨"A"⟩, some ⟨"A"⟩⟩ ⟨"B"⟩).1.lastAccessedNode
          = (_GetNode SdfPath.mk ⟨some sampleNetwork, ⟨"A"⟩, some ⟨"A"⟩⟩ ⟨"B"⟩).2
      ∧ (_GetNode SdfPath.mk ⟨some sampleNetwork, ⟨"A"⟩, some ⟨"A"⟩⟩ ⟨"B"⟩).2
          = handleOf SdfPath.mk sampleNetwork ⟨"B"⟩)
    ∧ ((⟨"B"⟩ : TfToken) = ⟨"A"⟩ →
        _GetNode SdfPath.mk ⟨some sampleNetwork, ⟨"A"⟩, some ⟨"A"⟩⟩ ⟨"B"⟩
          = (⟨some sampleNetwork, ⟨"A"⟩, some ⟨"A"⟩⟩, some ⟨"A"⟩)) :=
  GetNode_cache_contract SdfPath.mk ⟨some sampleNetwork, ⟨"A"⟩, some ⟨"A"⟩⟩ sampleNetwork
    ⟨"B"⟩ rfl

/-- C15 (a node created by a write is default-initialised apart from the
written field): in a state with a network whose cache entry agrees with it
and in which node `n` is absent, `SetNodeParameterValue(n, p, v)` succeeds,
after which `GetNodeType(n)` returns the empty identifier,
`GetNodeInputConnectionNames(n)` is empty and
`GetAuthoredNodeParameterNames(n)` is exactly `[p]`; the cache then holds the
name `n` with the handle of the new node, which is in the node map. -/
theorem SetNodeParameterValue_creates_default_node (toPath : String → SdfPath)
    (s : HdPrmanHdMaterialNetwork2Interface) (net : HdMaterialNetwork2)
    (n p : TfToken) (v : VtValue)
    (hnet : s.materialNetwork = some net) (hc : Coherent toPath s)
    (habsent : net.nodes.find (toPath n.GetString) = none) :
    ∃ s1, SetNodeParameterValue toPath s n p v = .ok s1
      ∧ GetNodeType toPath s1 n = .ok (s1, TfToken.empty)
      ∧ GetNodeInputConnectionNames toPath s1 n = .ok (s1, [])
      ∧ GetAuthoredNodeParameterNames toPath s1 n = .ok (s1, [p])
      ∧ s1.lastAccessedNodeName = n
      ∧ s1.lastAccessedNode = some (toPath n.GetString)
      ∧ ∃ net1 record, s1.materialNetwork = some net1
          ∧ net1.nodes.find (toPath n.GetString) = some record := by
  obtain ⟨net1, record1, hset, hfind, -, hrec⟩ :=
    SetNodeParameterValue_post toPath s net n p v hnet hc
  rw [habsent] at hrec
  refine ⟨_, hset, ?_, ?_, ?_, rfl, rfl, net1, record1, rfl, hfind⟩
  · refine (GetNodeType_hit toPath net1 n _ record1 hfind).trans ?_
    rw [hrec]
    rfl
  · refine (GetNodeInputConnectionNames_hit toPath net1 n _ record1 hfind).trans ?_
    rw [hrec]
    rfl
  · refine (GetAuthoredNodeParameterNames_hit toPath net1 n _ record1 hfind).trans ?_
    rw [hrec]
    rfl

/-- C15 at the network with the nodes `"A"` and `"B"` and the cache holding
`"A"`, writing a parameter of the absent node `"C"`. -/
theorem SetNodeParameterValue_creates_default_node_witness :
    ∃ s1, SetNodeParameterValue SdfPath.mk ⟨some sampleNetwork, ⟨"A"⟩, some ⟨"A"⟩⟩
          ⟨"C"⟩ ⟨"p"⟩ (.held 5) = .ok s1
      ∧ GetNodeType SdfPath.mk s1 ⟨"C"⟩ = .ok (s1, TfToken.empty)
      ∧ GetNodeInputConnectionNames SdfPath.mk s1 ⟨"C"⟩ = .ok (s1, [])
      ∧ GetAuthoredNodeParameterNames SdfPath.mk s1 ⟨"C"⟩ = .ok (s1, [⟨"p"⟩])
      ∧ s1.lastAccessedNodeName = ⟨"C"⟩
      ∧ s1.lastAccessedNode = some (SdfPath.mk "C")
      ∧ ∃ net1 record, s1.materialNetwork = some net1
          ∧ net1.nodes.find (SdfPath.mk "C") = some record :=
  SetNodeParameterValue_creates_default_node SdfPath.mk
    ⟨some sampleNetwork, ⟨"A"⟩, some ⟨"A"⟩⟩ sampleNetwork ⟨"C"⟩ ⟨"p"⟩ (.held 5) rfl
    (by decide) (by decide)

/-- C17 (writes touch only the addressed field of the node): in a state whose
cache entry agrees with the network and in which node `n` exists with the
record `record`, `SetNodeType(n, t)` sets the type and leaves the parameters
and input connections of `n` unchanged; `SetNodeParameterValue(n, p, v)`
leaves the type, the input connections and every parameter other than `p`
unchanged; `SetNodeInputConnection(n, i, cs)` leaves the type, the parameters
and every input other than `i` unchanged. -/
theorem writes_touch_only_addressed_field (toPath : String → SdfPath)
    (s : HdPrmanHdMaterialNetwork2Interface) (net : HdMaterialNetwork2)
    (record : HdMaterialNode2) (n t p i : TfToken) (v : VtValue) (cs : List InputConnection)
    (hnet : s.materialNetwork = some net) (hc : Coherent toPath s)
    (hnode : net.nodes.find (toPath n.GetString) = some record) :
    (∃ net1 record1, SetNodeType toPath s n t
          = .ok ⟨some net1, n, some (toPath n.GetString)⟩
        ∧ net1.nodes.find (toPath n.GetString) = some record1
        ∧ record1.nodeTypeId = t
        ∧ record1.parameters = record.parameters
        ∧ record1.inputConnections = record.inputConnections)
    ∧ (∃ net1 record1, SetNodeParameterValue toPath s n p v
          = .ok ⟨some net1, n, some (toPath n.GetString)⟩
        ∧ net1.nodes.find (toPath n.GetString) = some record1
        ∧ record1.nodeTypeId = record.nodeTypeId
        ∧ record1.inputConnections = record.inputConnections
        ∧ record1.parameters.find p = some v
        ∧ ∀ q, q ≠ p → record1.parameters.find q = record.parameters.find q)
    ∧ (∃ net1 record1, SetNodeInputConnection toPath s n i cs
          = .ok ⟨some net1, n, some (toPath n.GetString)⟩
        ∧ net1.nodes.find (toPath n.GetString) = some record1
        ∧ record1.nodeTypeId = record.nodeTypeId
        ∧ record1.parameters = record.parameters
        ∧ record1.inputConnections.find i
            = some (cs.map (fun c =>
                HdMaterialConnection2.mk (toPath c.upstreamNodeName.GetString)
                  c.upstreamOutputName))
        ∧ ∀ j, j ≠ i → record1.inputConnections.find j = record.inputConnections.find j) := by
  refine ⟨?_, ?_, ?_⟩
  · obtain ⟨net1, record1, hset, hfind, -, hrec⟩ := SetNodeType_post toPath s net n t hnet hc
    rw [hnode] at hrec
    refine ⟨net1, record1, hset, hfind, ?_, ?_, ?_⟩ <;> rw [hrec] <;> rfl
  · obtain ⟨net1, record1, hset, hfind, -, hrec⟩ :=
      SetNodeParameterValue_post toPath s net n p v hnet hc
    rw [hnode] at hrec
    refine ⟨net1, record1, hset, hfind, ?_, ?_, ?_, ?_⟩
    · rw [hrec]; rfl
    · rw [hrec]; rfl
    · rw [hrec]; exact StdMap.find_assign_self _ _ _
    · intro q hq
      rw [hrec]
      exact StdMap.find_assign_ne _ _ q _ hq
  · obtain ⟨net1, record1, hset, hfind, -, hrec⟩ :=
      SetNodeInputConnection_post toPath s net n i cs hnet hc
    rw [hnode] at hrec
    refine ⟨net1, record1, hset, hfind, ?_, ?_, ?_, ?_⟩
    · rw [hrec]; rfl
    · rw [hrec]; rfl
    · rw [hrec]; exact StdMap.find_assign_self _ _ _
    · intro j hj
      rw [hrec]
      exact StdMap.find_assign_ne _ _ j _ hj

/-- C17 at the network `authoredNetwork` with the cache holding `"B"`, writing
to the node `"A"`, which has the type `"foo"`, the parameter `"p"` and the
input `"in"`. -/
theorem writes_touch_only_addressed_field_witness :
    (∃ net1 record1, SetNodeType SdfPath.mk ⟨some authoredNetwork, ⟨"B"⟩, some ⟨"B"⟩⟩
          ⟨"A"⟩ ⟨"bar"⟩ = .ok ⟨some net1, ⟨"A"⟩, some (SdfPath.mk "A")⟩
        ∧ net1.nodes.find (SdfPath.mk "A") = some record1
        ∧ record1.nodeTypeId = ⟨"bar"⟩
        ∧ record1.parameters = authoredNode.parameters
        ∧ record1.inputConnections = authoredNode.inputConnections)
    ∧ (∃ net1 record1, SetNodeParameterValue SdfPath.mk
          ⟨some authoredNetwork, ⟨"B"⟩, some ⟨"B"⟩⟩ ⟨"A"⟩ ⟨"q"⟩ (.held 7)
          = .ok ⟨some net1, ⟨"A"⟩, some (SdfPath.mk "A")⟩
        ∧ net1.nodes.find (SdfPath.mk "A") = some record1
        ∧ record1.nodeTypeId = authoredNode.nodeTypeId
        ∧ record1.inputConnections = authoredNode.inputConnections
        ∧ record1.parameters.find ⟨"q"⟩ = some (.held 7)
        ∧ ∀ q, q ≠ (⟨"q"⟩ : TfToken) →
            record1.parameters.find q = authoredNode.parameters.find q)
    ∧ (∃ net1 record1, SetNodeInputConnection SdfPath.mk
          ⟨some authoredNetwork, ⟨"B"⟩, some ⟨"B"⟩⟩ ⟨"A"⟩ ⟨"in2"⟩ [⟨⟨"V"⟩, ⟨"out"⟩⟩]
          = .ok ⟨some net1, ⟨"A"⟩, some (SdfPath.mk "A")⟩
        ∧ net1.nodes.find (SdfPath.mk "A") = some record1
        ∧ record1.nodeTypeId = authoredNode.nodeTypeId
        ∧ record1.parameters = authoredNode.parameters
        ∧ record1.inputConnections.find ⟨"in2"⟩
            = some ([⟨⟨"V"⟩, ⟨"out"⟩⟩].map (fun c : InputConnection =>
                HdMaterialConnection2.mk (SdfPath.mk c.upstreamNodeName.GetString)
                  c.upstreamOutputName))
        ∧ ∀ j, j ≠ (⟨"in2"⟩ : TfToken) →
            record1.inputConnections.find j = authoredNode.inputConnections.find j) :=
  writes_touch_only_addressed_field SdfPath.mk ⟨some authoredNetwork, ⟨"B"⟩, some ⟨"B"⟩⟩
    authoredNetwork authoredNode ⟨"A"⟩ ⟨"bar"⟩ ⟨"q"⟩ ⟨"in2"⟩ (.held 7) [⟨⟨"V"⟩, ⟨"out"⟩⟩]
    rfl (by decide) (by decide)

/-- C18 (writes touch only the addressed node): in a state with a network
whose cache entry agrees with it, each of `SetNodeType`,
`SetNodeParameterValue`, `SetNodeInputConnection`, `DeleteNodeParameter` and
`DeleteNodeInputConnection` addressed to the name `n` succeeds and leaves the
lookup of every identifier other than the one of `n` as it was, so no other
record changes and no other node appears; in particular
`SetNodeInputConnection(n, i, cs)` does not create an upstream node named in
`cs` that was absent. -/
theorem writes_touch_only_addressed_node (toPath : String → SdfPath)
    (s : HdPrmanHdMaterialNetwork2Interface) (net : HdMaterialNetwork2)
    (n t p i : TfToken) (v : VtValue) (cs : List InputConnection)
    (hnet : s.materialNetwork = some net) (hc : Coherent toPath s) :
    (∃ s1 net1, SetNodeType toPath s n t = .ok s1 ∧ s1.materialNetwork = some net1
        ∧ ∀ q, q ≠ toPath n.GetString → net1.nodes.find q = net.nodes.find q)
    ∧ (∃ s1 net1, SetNodeParameterValue toPath s n p v = .ok s1
        ∧ s1.materialNetwork = some net1
        ∧ ∀ q, q ≠ toPath n.GetString → net1.nodes.find q = net.nodes.find q)
    ∧ (∃ s1 net1, SetNodeInputConnection toPath s n i cs = .ok s1
        ∧ s1.materialNetwork = some net1
        ∧ (∀ q, q ≠ toPath n.GetString → net1.nodes.find q = net.nodes.find q)
        ∧ ∀ c ∈ cs, toPath c.upstreamNodeName.GetString ≠ toPath n.GetString →
            net.nodes.find (toPath c.upstreamNodeName.GetString) = none →
            net1.nodes.find (toPath c.upstreamNodeName.GetString) = none)
    ∧ (∃ s1 net1, DeleteNodeParameter toPath s n p = .ok s1 ∧ s1.materialNetwork = some net1
        ∧ ∀ q, q ≠ toPath n.GetString → net1.nodes.find q = net.nodes.find q)
    ∧ (∃ s1 net1, DeleteNodeInputConnection toPath s n i = .ok s1
        ∧ s1.materialNetwork = some net1
        ∧ ∀ q, q ≠ toPath n.GetString → net1.nodes.find q = net.nodes.find q) := by
  have hframe : ∀ (net1 : HdMaterialNetwork2) (record1 : HdMaterialNode2),
      net1.nodes = (net.nodes.subscript (toPath n.GetString)).assign
        (toPath n.GetString) record1 →
      ∀ q, q ≠ toPath n.GetString → net1.nodes.find q = net.nodes.find q := by
    intro net1 record1 hn1 q hq
    rw [hn1, StdMap.find_assign_ne _ _ q _ hq, StdMap.find_subscript_ne _ _ q hq]
  refine ⟨?_, ?_, ?_, ?_, ?_⟩
  · obtain ⟨net1, record1, hset, -, hn1, -⟩ := SetNodeType_post toPath s net n t hnet hc
    exact ⟨_, net1, hset, rfl, hframe net1 record1 hn1⟩
  · obtain ⟨net1, record1, hset, -, hn1, -⟩ :=
      SetNodeParameterValue_post toPath s net n p v hnet hc
    exact ⟨_, net1, hset, rfl, hframe net1 record1 hn1⟩
  · obtain ⟨net1, record1, hset, -, hn1, -⟩ :=
      SetNodeInputConnection_post toPath s net n i cs hnet hc
    refine ⟨_, net1, hset, rfl, hframe net1 record1 hn1, ?_⟩
    intro c _ hne habsent
    rw [hframe net1 record1 hn1 _ hne]
    exact habsent
  · cases hf : net.nodes.find (toPath n.GetString) with
    | none => exact ⟨_, net, DeleteNodeParameter_missing toPath s net n p hnet hc hf, rfl,
        fun _ _ => rfl⟩
    | some record =>
      exact ⟨_, _, DeleteNodeParameter_present toPath s net n p record hnet hc hf, rfl,
        fun q hq => StdMap.find_assign_ne _ _ q _ hq⟩
  · cases hf : net.nodes.find (toPath n.GetString) with
    | none => exact ⟨_, net, DeleteNodeInputConnection_missing toPath s net n i hnet hc hf, rfl,
        fun _ _ => rfl⟩
    | some record =>
      exact ⟨_, _, DeleteNodeInputConnection_present toPath s net n i record hnet hc hf, rfl,
        fun q hq => StdMap.find_assign_ne _ _ q _ hq⟩

/-- C18 at the network `authoredNetwork` with the cache holding `"B"`, writing
to the node `"A"`; the upstream node `"V"` is not in the network. -/
theorem writes_touch_only_addressed_node_witness :
    (∃ s1 net1, SetNodeType SdfPath.mk ⟨some authoredNetwork, ⟨"B"⟩, some ⟨"B"⟩⟩
          ⟨"A"⟩ ⟨"bar"⟩ = .ok s1 ∧ s1.materialNetwork = some net1
        ∧ ∀ q, q ≠ SdfPath.mk "A" → net1.nodes.find q = authoredNetwork.nodes.find q)
    ∧ (∃ s1 net1, SetNodeParameterValue SdfPath.mk
          ⟨some authoredNetwork, ⟨"B"⟩, some ⟨"B"⟩⟩ ⟨"A"⟩ ⟨"p"⟩ (.held 7) = .ok s1
        ∧ s1.materialNetwork = some net1
        ∧ ∀ q, q ≠ SdfPath.mk "A" → net1.nodes.find q = authoredNetwork.nodes.find q)
    ∧ (∃ s1 net1, SetNodeInputConnection SdfPath.mk
          ⟨some authoredNetwork, ⟨"B"⟩, some ⟨"B"⟩⟩ ⟨"A"⟩ ⟨"in"⟩ [⟨⟨"V"⟩, ⟨"out"⟩⟩] = .ok s1
        ∧ s1.materialNetwork = some net1
        ∧ (∀ q, q ≠ SdfPath.mk "A" → net1.nodes.find q = authoredNetwork.nodes.find q)
        ∧ ∀ c ∈ ([⟨⟨"V"⟩, ⟨"out"⟩⟩] : List InputConnection),
            SdfPath.mk c.upstreamNodeName.GetString ≠ SdfPath.mk "A" →
            authoredNetwork.nodes.find (SdfPath.mk c.upstreamNodeName.GetString) = none →
            net1.nodes.find (SdfPath.mk c.upstreamNodeName.GetString) = none)
    ∧ (∃ s1 net1, DeleteNodeParameter SdfPath.mk
          ⟨some authoredNetwork, ⟨"B"⟩, some ⟨"B"⟩⟩ ⟨"A"⟩ ⟨"p"⟩ = .ok s1
        ∧ s1.materialNetwork = some net1
        ∧ ∀ q, q ≠ SdfPath.mk "A" → net1.nodes.find q = authoredNetwork.nodes.find q)
    ∧ (∃ s1 net1, DeleteNodeInputConnection SdfPath.mk
          ⟨some authoredNetwork, ⟨"B"⟩, some ⟨"B"⟩⟩ ⟨"A"⟩ ⟨"in"⟩ = .ok s1
        ∧ s1.materialNetwork = some net1
        ∧ ∀ q, q ≠ SdfPath.mk "A" → net1.nodes.find q = authoredNetwork.nodes.find q) :=
  writes_touch_only_addressed_node SdfPath.mk ⟨some authoredNetwork, ⟨"B"⟩, some ⟨"B"⟩⟩
    authoredNetwork ⟨"A"⟩ ⟨"bar"⟩ ⟨"p"⟩ ⟨"in"⟩ (.held 7) [⟨⟨"V"⟩, ⟨"out"⟩⟩] rfl (by decide)

/-- C12 (name round-trip): a flat name is valid when its string has no NUL
character, so that `nodeName.data()` carries all of it, and the path built
from it gives the string back as its string form.  For valid names `n` and
`m`, translating `n` to its identifier as the lookups do and back as
`GetNodeNames` and `GetNodeInputConnection` do yields `n`, and equal
identifiers come from equal names; this holds for the path construction
modelled from the specification, where every string is given back, and for
every path construction on the names it gives back.  The condition on the
characters cannot be dropped: whatever the path construction, the name with
the characters `A`, NUL, `B` has the identifier of the name `A`.  With the
lookups translating in this way, `SetNodeType(n, t)` on a fresh editor over an
empty network makes `GetNodeNames()` return `n` itself. -/
theorem name_round_trip (n m : TfToken)
    (hn : NulFree n.GetString) (hm : NulFree m.GetString) :
    toName (toIdentifier SdfPath.ofString n) = n
    ∧ (toIdentifier SdfPath.ofString n = toIdentifier SdfPath.ofString m → n = m)
    ∧ (∀ toPath : String → SdfPath, ValidName toPath n → ValidName toPath m →
        toName (toIdentifier toPath n) = n
        ∧ (toIdentifier toPath n = toIdentifier toPath m → n = m))
    ∧ (∀ toPath : String → SdfPath,
        toIdentifier toPath ⟨String.mk ['A', Char.ofNat 0, 'B']⟩ = toIdentifier toPath ⟨"A"⟩
        ∧ (⟨String.mk ['A', Char.ofNat 0, 'B']⟩ : TfToken) ≠ ⟨"A"⟩
        ∧ toName (toIdentifier SdfPath.ofString ⟨String.mk ['A', Char.ofNat 0, 'B']⟩)
            = ⟨"A"⟩)
    ∧ (∀ t, ∃ s1, SetNodeType (fun text => SdfPath.ofString (cString text))
          (fresh (some ⟨StdMap.empty⟩)) n t = .ok s1
        ∧ GetNodeNames s1 = [n]) := by
  have hgen : ∀ toPath : String → SdfPath, ValidName toPath n → ValidName toPath m →
      toName (toIdentifier toPath n) = n
      ∧ (toIdentifier toPath n = toIdentifier toPath m → n = m) := by
    intro toPath hvn hvm
    have h1 : toName (toIdentifier toPath n) = n := by
      unfold toIdentifier
      rw [cString_of_NulFree _ hn]
      exact hvn
    have h2 : toName (toIdentifier toPath m) = m := by
      unfold toIdentifier
      rw [cString_of_NulFree _ hm]
      exact hvm
    refine ⟨h1, fun h => ?_⟩
    rw [← h1, ← h2, h]
  have hspec := hgen SdfPath.ofString rfl rfl
  refine ⟨hspec.1, hspec.2, hgen, fun toPath => ⟨rfl, by decide, rfl⟩, fun t => ?_⟩
  obtain ⟨s1, hset, hnames⟩ :=
    SetNodeType_names_fresh_empty (fun text => SdfPath.ofString (cString text)) n t
  refine ⟨s1, hset, ?_⟩
  rw [hnames]
  exact congrArg (fun name => [name]) hspec.1

/-- C12 at the names `"A"` and `"B"`. -/
theorem name_round_trip_witness :
    toName (toIdentifier SdfPath.ofString ⟨"A"⟩) = ⟨"A"⟩
    ∧ (toIdentifier SdfPath.ofString ⟨"A"⟩ = toIdentifier SdfPath.ofString ⟨"B"⟩
        → (⟨"A"⟩ : TfToken) = ⟨"B"⟩)
    ∧ (∀ toPath : String → SdfPath, ValidName toPath ⟨"A"⟩ → ValidName toPath ⟨"B"⟩ →
        toName (toIdentifier toPath ⟨"A"⟩) = ⟨"A"⟩
        ∧ (toIdentifier toPath ⟨"A"⟩ = toIdentifier toPath ⟨"B"⟩
            → (⟨"A"⟩ : TfToken) = ⟨"B"⟩))
    ∧ (∀ toPath : String → SdfPath,
        toIdentifier toPath ⟨String.mk ['A', Char.ofNat 0, 'B']⟩ = toIdentifier toPath ⟨"A"⟩
        ∧ (⟨String.mk ['A', Char.ofNat 0, 'B']⟩ : TfToken) ≠ ⟨"A"⟩
        ∧ toName (toIdentifier SdfPath.ofString ⟨String.mk ['A', Char.ofNat 0, 'B']⟩)
            = ⟨"A"⟩)
    ∧ (∀ t, ∃ s1, SetNodeType (fun text => SdfPath.ofString (cString text))
          (fresh (some ⟨StdMap.empty⟩)) ⟨"A"⟩ t = .ok s1
        ∧ GetNodeNames s1 = [⟨"A"⟩]) :=
  name_round_trip ⟨"A"⟩ ⟨"B"⟩ (by decide) (by decide)

/-- C13 (reads leave the network unchanged): in every state `_GetNode` leaves
the network as it is, so every read that returns, and every sequence of reads
that returns, ends in a state with the same node map and the same
`GetNodeNames()`; no read creates a node.  In a state whose cache entry agrees
with the network every sequence of reads does return. -/
theorem reads_leave_network_unchanged (toPath : String → SdfPath)
    (s : HdPrmanHdMaterialNetwork2Interface) (ops : List Op)
    (hreads : ∀ op ∈ ops, op.isRead = true) :
    (∀ n, (_GetNode toPath s n).1.materialNetwork = s.materialNetwork)
    ∧ (∀ op s1 r, op.isRead = true → step toPath s op = .ok (s1, r) →
        s1.materialNetwork = s.materialNetwork)
    ∧ (∀ s1 rs, run toPath s ops = .ok (s1, rs) →
        s1.materialNetwork = s.materialNetwork ∧ GetNodeNames s1 = GetNodeNames s)
    ∧ (Coherent toPath s → ∃ s1 rs, run toPath s ops = .ok (s1, rs)
        ∧ s1.materialNetwork = s.materialNetwork ∧ GetNodeNames s1 = GetNodeNames s) := by
  refine ⟨GetNode_network toPath s, ?_, ?_, ?_⟩
  · intro op s1 r hop h
    exact step_read_network toPath s s1 op r hop h
  · intro s1 rs h
    have hn := run_reads_network toPath ops hreads s s1 rs h
    exact ⟨hn, GetNodeNames_congr s s1 hn⟩
  · intro hc
    obtain ⟨s1, rs, h⟩ := run_reads_coherent toPath ops hreads s hc
    have hn := run_reads_network toPath ops hreads s s1 rs h
    exact ⟨s1, rs, h, hn, GetNodeNames_congr s s1 hn⟩

/-- C13 at the network with the nodes `"A"` and `"B"`: a sequence of the six
reads, among them reads addressed to the absent node `"C"`. -/
theorem reads_leave_network_unchanged_witness :
    (∀ n, (_GetNode SdfPath.mk ⟨some sampleNetwork, ⟨"A"⟩, some ⟨"A"⟩⟩ n).1.materialNetwork
        = some sampleNetwork)
    ∧ (∀ op s1 r, op.isRead = true →
        step SdfPath.mk ⟨some sampleNetwork, ⟨"A"⟩, some ⟨"A"⟩⟩ op = .ok (s1, r) →
        s1.materialNetwork = some sampleNetwork)
    ∧ (∀ s1 rs, run SdfPath.mk ⟨some sampleNetwork, ⟨"A"⟩, some ⟨"A"⟩⟩
          [.GetNodeNames, .GetNodeType ⟨"C"⟩, .GetAuthoredNodeParameterNames ⟨"A"⟩,
            .GetNodeParameterValue ⟨"C"⟩ ⟨"p"⟩, .GetNodeInputConnectionNames ⟨"B"⟩,
            .GetNodeInputConnection ⟨"C"⟩ ⟨"in"⟩] = .ok (s1, rs) →
        s1.materialNetwork = some sampleNetwork
        ∧ GetNodeNames s1 = GetNodeNames ⟨some sampleNetwork, ⟨"A"⟩, some ⟨"A"⟩⟩)
    ∧ (Coherent SdfPath.mk ⟨some sampleNetwork, ⟨"A"⟩, some ⟨"A"⟩⟩ →
        ∃ s1 rs, run SdfPath.mk ⟨some sampleNetwork, ⟨"A"⟩, some ⟨"A"⟩⟩
          [.GetNodeNames, .GetNodeType ⟨"C"⟩, .GetAuthoredNodeParameterNames ⟨"A"⟩,
            .GetNodeParameterValue ⟨"C"⟩ ⟨"p"⟩, .GetNodeInputConnectionNames ⟨"B"⟩,
            .GetNodeInputConnection ⟨"C"⟩ ⟨"in"⟩] = .ok (s1, rs)
        ∧ s1.materialNetwork = some sampleNetwork
        ∧ GetNodeNames s1 = GetNodeNames ⟨some sampleNetwork, ⟨"A"⟩, some ⟨"A"⟩⟩) :=
  reads_leave_network_unchanged SdfPath.mk ⟨some sampleNetwork, ⟨"A"⟩, some ⟨"A"⟩⟩
    [.GetNodeNames, .GetNodeType ⟨"C"⟩, .GetAuthoredNodeParameterNames ⟨"A"⟩,
      .GetNodeParameterValue ⟨"C"⟩ ⟨"p"⟩, .GetNodeInputConnectionNames ⟨"B"⟩,
      .GetNodeInputConnection ⟨"C"⟩ ⟨"in"⟩] (by decide)

/-- C16 (cache coherence is an invariant of every operation except deletion of
the cached node): in a coherent state with a network, every public operation
other than `DeleteNode` returns and yields a coherent state; `DeleteNode(m)`
yields a coherent state when the identifier of `m` differs from the one of the
cached name or no node is stored there, and an incoherent state when the
identifier of `m` is the one of the cached name and that node exists. -/
theorem coherence_kept_except_DeleteNode_of_cached (toPath : String → SdfPath)
    (s : HdPrmanHdMaterialNetwork2Interface) (net : HdMaterialNetwork2) (op : Op) (m : TfToken)
    (hnet : s.materialNetwork = some net) (hc : Coherent toPath s) :
    ((∀ k, op ≠ Op.DeleteNode k) →
        ∃ s1 r, step toPath s op = .ok (s1, r) ∧ Coherent toPath s1)
    ∧ step toPath s (.DeleteNode m) = .ok (DeleteNode toPath s m, .done)
    ∧ (¬ (toPath m.GetString = toPath s.lastAccessedNodeName.GetString
          ∧ ∃ record, net.nodes.find (toPath s.lastAccessedNodeName.GetString) = some record)
        → Coherent toPath (DeleteNode toPath s m))
    ∧ ((toPath m.GetString = toPath s.lastAccessedNodeName.GetString
          ∧ ∃ record, net.nodes.find (toPath s.lastAccessedNodeName.GetString) = some record)
        → ¬ Coherent toPath (DeleteNode toPath s m)) := by
  refine ⟨?_, rfl, ?_, ?_⟩
  · intro hop
    obtain ⟨s1, r, _, hr, _, _, hc1⟩ := step_coherent toPath s net op hnet hc hop
    exact ⟨s1, r, hr, hc1⟩
  · intro h
    exact (DeleteNode_coherent_iff toPath s net m hnet hc).mpr h
  · intro h hcoh
    exact (DeleteNode_coherent_iff toPath s net m hnet hc).mp hcoh h

/-- C16 at the network with the nodes `"A"` and `"B"` and the cache holding
`"A"`: the write `SetNodeType("B","foo")`, and `DeleteNode("A")`. -/
theorem coherence_kept_except_DeleteNode_of_cached_witness :
    ((∀ k, Op.SetNodeType ⟨"B"⟩ ⟨"foo"⟩ ≠ Op.DeleteNode k) →
        ∃ s1 r, step SdfPath.mk ⟨some sampleNetwork, ⟨"A"⟩, some ⟨"A"⟩⟩
            (.SetNodeType ⟨"B"⟩ ⟨"foo"⟩) = .ok (s1, r)
          ∧ Coherent SdfPath.mk s1)
    ∧ step SdfPath.mk ⟨some sampleNetwork, ⟨"A"⟩, some ⟨"A"⟩⟩ (.DeleteNode ⟨"A"⟩)
        = .ok (DeleteNode SdfPath.mk ⟨some sampleNetwork, ⟨"A"⟩, some ⟨"A"⟩⟩ ⟨"A"⟩, .done)
    ∧ (¬ (SdfPath.mk "A" = SdfPath.mk "A"
          ∧ ∃ record, sampleNetwork.nodes.find (SdfPath.mk "A") = some record)
        → Coherent SdfPath.mk
            (DeleteNode SdfPath.mk ⟨some sampleNetwork, ⟨"A"⟩, some ⟨"A"⟩⟩ ⟨"A"⟩))
    ∧ ((SdfPath.mk "A" = SdfPath.mk "A"
          ∧ ∃ record, sampleNetwork.nodes.find (SdfPath.mk "A") = some record)
        → ¬ Coherent SdfPath.mk
            (DeleteNode SdfPath.mk ⟨some sampleNetwork, ⟨"A"⟩, some ⟨"A"⟩⟩ ⟨"A"⟩)) :=
  coherence_kept_except_DeleteNode_of_cached SdfPath.mk
    ⟨some sampleNetwork, ⟨"A"⟩, some ⟨"A"⟩⟩ sampleNetwork (.SetNodeType ⟨"B"⟩ ⟨"foo"⟩) ⟨"A"⟩
    rfl (by decide)

end HdPrmanHdMaterialNetwork2Interface

end HdPrman
